import Mathlib

/-!
A shallow embedding of `gotts.go`.

The program is a small client of an HTTP API: `getAvailableModels` lists the
models of the service, `convertTextToSpeech` posts a speech request and
creates a destination file, `main` reads the API key and prints the models.

The embedding has three layers.

* The parts of the Go standard library the program relies on:
  `reflect.StructTag.Lookup` and the field naming of `encoding/json`, the
  JSON scanner of `encoding/json` (a pushdown automaton over the characters
  of the body) and the decoding of a JSON value into the program's structs.
* The world the program runs in: environment variables, the network's answer
  to an HTTP request, the file system, standard output; and the HTTP client
  of `net/http` over it (header check, redirects).
* The three functions of `gotts.go`, by explicit state passing.

Byte strings are embedded as `String` (well-formed UTF-8 text), Go's `int`
and `int64` as `Int` with an explicit range check where `int64` matters, and
`float32` as `Rat`.
-/

namespace Gotts

/-! ## JSON values -/

/-- A JSON value as `encoding/json` reads it. A number keeps its literal text:
the decoder hands that text to `strconv.ParseInt`. -/
inductive JValue where
  | null
  | bool (b : Bool)
  | number (lit : String)
  | string (s : String)
  | array (elems : List JValue)
  | object (members : List (String × JValue))

/-! ## The scanner of `encoding/json` (scanner.go)

The scanner is a state machine fed one character at a time, with a stack
`parseState` of the containers that are open. The embedding keeps on the
stack what has been read of each container, so that the run also yields the
value. -/

/-- An entry of the scanner's `parseState` stack, with the part of the
container read so far (latest first). `objectKey` is Go's `parseObjectKey`,
`objectValue` is `parseObjectValue`, `arrayValue` is `parseArrayValue`. -/
inductive Frame where
  | objectKey (done : List (String × JValue)) (key : Option String)
  | objectValue (done : List (String × JValue)) (key : Option String)
  | arrayValue (done : List JValue)

/-- The scanner's `step` function, as data. The accumulators hold the
characters of the literal being read, latest first. `literal rest v` stands
for the states after the first letter of `true`, `false` and `null`. -/
inductive Step where
  | beginValueOrEmpty
  | beginValue
  | beginStringOrEmpty
  | beginString
  | endValue
  | endTop
  | inString (raw : List Char)
  | inStringEsc (raw : List Char)
  | inStringEscU (raw : List Char) (seen : Nat)
  | neg (lit : List Char)
  | state1 (lit : List Char)
  | state0 (lit : List Char)
  | dot (lit : List Char)
  | dot0 (lit : List Char)
  | stateE (lit : List Char)
  | stateESign (lit : List Char)
  | stateE0 (lit : List Char)
  | literal (rest : List Char) (v : JValue)

/-- The scanner: current step, open containers, and the top-level value once
it is complete. -/
structure Scanner where
  step : Step
  parseState : List Frame
  result : Option JValue

/-- Go's `maxNestingDepth`. -/
def maxNestingDepth : Nat := 10000

/-- Go's `isSpace`. -/
def isSpace (c : Char) : Bool :=
  c == ' ' || c == '\t' || c == '\r' || c == '\n'

def isDigit (c : Char) : Bool := '0' ≤ c && c ≤ '9'

def isHex (c : Char) : Bool :=
  ('0' ≤ c && c ≤ '9') || ('a' ≤ c && c ≤ 'f') || ('A' ≤ c && c ≤ 'F')

def hexVal (c : Char) : Nat :=
  if '0' ≤ c ∧ c ≤ '9' then c.toNat - '0'.toNat
  else if 'a' ≤ c ∧ c ≤ 'f' then c.toNat - 'a'.toNat + 10
  else if 'A' ≤ c ∧ c ≤ 'F' then c.toNat - 'A'.toNat + 10
  else 0

def hex4 (a b c d : Char) : Nat :=
  ((hexVal a * 16 + hexVal b) * 16 + hexVal c) * 16 + hexVal d

/-- Go's `utf16.IsSurrogate`. -/
def isSurrogate (r : Nat) : Bool := 0xD800 ≤ r && r < 0xE000

/-- Go's `utf16.DecodeRune`, `none` standing for the replacement character
returned on an invalid pair. -/
def decodeSurrogates (r1 r2 : Nat) : Option Nat :=
  if 0xD800 ≤ r1 ∧ r1 < 0xDC00 ∧ 0xDC00 ≤ r2 ∧ r2 < 0xE000 then
    some ((r1 - 0xD800) * 1024 + (r2 - 0xDC00) + 0x10000)
  else none

/-- The character an escape letter stands for (`unquoteBytes`). -/
def unescape (c : Char) : Char :=
  if c = 'b' then Char.ofNat 8
  else if c = 'f' then Char.ofNat 12
  else if c = 'n' then '\n'
  else if c = 'r' then '\r'
  else if c = 't' then '\t'
  else c

/-- Where `unquoteBytes` stands inside a string literal: in plain text, after
a backslash, inside the four hex digits of a `\u` escape, or just after a
`\u` escape that gave a surrogate `hi` (Go then looks ahead for a second `\u`
escape), with how much of that second escape has been read. -/
inductive UnquoteMode where
  | plain
  | esc
  | hex (digits : List Char)
  | pending (hi : Nat)
  | pendingEsc (hi : Nat)
  | pendingHex (hi : Nat) (digits : List Char)

/-- The value of four hex digits held latest first (Go's `getu4`). -/
def getu4 : List Char → Nat
  | [d, c, b, a] => hex4 a b c d
  | _ => 0

/-- What a completed `\u` escape of value `rr` does: a surrogate waits for its
partner, any other value is written out. -/
def emitU4 (out : List Char) (rr : Nat) : List Char × UnquoteMode :=
  if isSurrogate rr then (out, UnquoteMode.pending rr)
  else (Char.ofNat rr :: out, UnquoteMode.plain)

/-- One character of `unquoteBytes`; `out` is the output so far, latest
first. -/
def unquoteStep (st : List Char × UnquoteMode) (c : Char) : List Char × UnquoteMode :=
  match st with
  | (out, UnquoteMode.plain) =>
    if c = '\\' then (out, UnquoteMode.esc) else (c :: out, UnquoteMode.plain)
  | (out, UnquoteMode.esc) =>
    if c = 'u' then (out, UnquoteMode.hex []) else (unescape c :: out, UnquoteMode.plain)
  | (out, UnquoteMode.hex ds) =>
    if ds.length < 3 then (out, UnquoteMode.hex (c :: ds)) else emitU4 out (getu4 (c :: ds))
  | (out, UnquoteMode.pending hi) =>
    if c = '\\' then (out, UnquoteMode.pendingEsc hi)
    else (c :: Char.ofNat 0xFFFD :: out, UnquoteMode.plain)
  | (out, UnquoteMode.pendingEsc hi) =>
    if c = 'u' then (out, UnquoteMode.pendingHex hi [])
    else (unescape c :: Char.ofNat 0xFFFD :: out, UnquoteMode.plain)
  | (out, UnquoteMode.pendingHex hi ds) =>
    if ds.length < 3 then (out, UnquoteMode.pendingHex hi (c :: ds))
    else
      match decodeSurrogates hi (getu4 (c :: ds)) with
      | some r => (Char.ofNat r :: out, UnquoteMode.plain)
      | none => emitU4 (Char.ofNat 0xFFFD :: out) (getu4 (c :: ds))

/-- Go's `unquoteBytes` on the characters between the quotes of a string
literal the scanner has accepted: escapes are replaced, a `\u` pair of
surrogates is combined, a lone surrogate becomes U+FFFD. -/
def unquote (raw : List Char) : String :=
  match raw.foldl unquoteStep ([], UnquoteMode.plain) with
  | (out, UnquoteMode.pending _) => String.mk (Char.ofNat 0xFFFD :: out).reverse
  | (out, _) => String.mk out.reverse

/-- A completed value goes to the innermost open container, or is the
top-level value when none is open; the scanner then stands at
`stateEndValue`. A string completed while a key is awaited is that key. -/
def deliver (v : JValue) (s : Scanner) : Scanner :=
  match s.parseState with
  | [] => { step := Step.endValue, parseState := [], result := some v }
  | Frame.objectKey done key :: rest =>
    match v with
    | JValue.string k =>
      { s with step := Step.endValue, parseState := Frame.objectKey done (some k) :: rest }
    | _ => { s with step := Step.endValue, parseState := Frame.objectKey done key :: rest }
  | Frame.objectValue done (some k) :: rest =>
    { s with step := Step.endValue, parseState := Frame.objectValue ((k, v) :: done) none :: rest }
  | Frame.objectValue done none :: rest =>
    { s with step := Step.endValue, parseState := Frame.objectValue done none :: rest }
  | Frame.arrayValue done :: rest =>
    { s with step := Step.endValue, parseState := Frame.arrayValue (v :: done) :: rest }

/-- Go's `pushParseState`: open a container, unless the nesting would exceed
`maxNestingDepth`. -/
def pushParseState (s : Scanner) (f : Frame) (next : Step) : Option Scanner :=
  if s.parseState.length + 1 ≤ maxNestingDepth then
    some { s with step := next, parseState := f :: s.parseState }
  else none

/-- Go's `stateEndValue` (with `stateEndTop` when no container is open and
`popParseState` on a closing bracket). -/
def stateEndValue (s : Scanner) (c : Char) : Option Scanner :=
  match s.parseState with
  | [] => if isSpace c then some { s with step := Step.endTop } else none
  | f :: rest =>
    if isSpace c then some { s with step := Step.endValue }
    else
      match f with
      | Frame.objectKey done key =>
        if c = ':' then
          some { s with step := Step.beginValue, parseState := Frame.objectValue done key :: rest }
        else none
      | Frame.objectValue done _ =>
        if c = ',' then
          some { s with step := Step.beginString, parseState := Frame.objectKey done none :: rest }
        else if c = '}' then
          some (deliver (JValue.object done.reverse) { s with parseState := rest })
        else none
      | Frame.arrayValue done =>
        if c = ',' then some { s with step := Step.beginValue }
        else if c = ']' then
          some (deliver (JValue.array done.reverse) { s with parseState := rest })
        else none

/-- Go's `stateBeginValue`. -/
def stateBeginValue (s : Scanner) (c : Char) : Option Scanner :=
  if isSpace c then some s
  else if c = '{' then pushParseState s (Frame.objectKey [] none) Step.beginStringOrEmpty
  else if c = '[' then pushParseState s (Frame.arrayValue []) Step.beginValueOrEmpty
  else if c = '"' then some { s with step := Step.inString [] }
  else if c = '-' then some { s with step := Step.neg [c] }
  else if c = '0' then some { s with step := Step.state0 [c] }
  else if c = 't' then some { s with step := Step.literal ['r', 'u', 'e'] (JValue.bool true) }
  else if c = 'f' then some { s with step := Step.literal ['a', 'l', 's', 'e'] (JValue.bool false) }
  else if c = 'n' then some { s with step := Step.literal ['u', 'l', 'l'] JValue.null }
  else if '1' ≤ c ∧ c ≤ '9' then some { s with step := Step.state1 [c] }
  else none

/-- Go's `stateBeginString`. -/
def stateBeginString (s : Scanner) (c : Char) : Option Scanner :=
  if isSpace c then some s
  else if c = '"' then some { s with step := Step.inString [] }
  else none

/-- The end of a number literal: the number is complete and the character
that ended it is handled by `stateEndValue`. -/
def endNumber (s : Scanner) (lit : List Char) (c : Char) : Option Scanner :=
  stateEndValue (deliver (JValue.number (String.mk lit.reverse)) s) c

/-- Go's `state0`: after the integer part of a number. -/
def state0 (s : Scanner) (lit : List Char) (c : Char) : Option Scanner :=
  if c = '.' then some { s with step := Step.dot (c :: lit) }
  else if c = 'e' ∨ c = 'E' then some { s with step := Step.stateE (c :: lit) }
  else endNumber s lit c

/-- Go's `stateESign`: after the `e` and optional sign of an exponent. -/
def stateESign (s : Scanner) (lit : List Char) (c : Char) : Option Scanner :=
  if isDigit c then some { s with step := Step.stateE0 (c :: lit) } else none

/-- One step of the scanner: Go's `s.step(s, c)`, `none` for `scanError`. -/
def step (s : Scanner) (c : Char) : Option Scanner :=
  match s.step with
  | Step.beginValueOrEmpty =>
    if isSpace c then some s
    else if c = ']' then stateEndValue s c
    else stateBeginValue s c
  | Step.beginValue => stateBeginValue s c
  | Step.beginStringOrEmpty =>
    if isSpace c then some s
    else if c = '}' then
      match s.parseState with
      | Frame.objectKey done key :: rest =>
        stateEndValue { s with parseState := Frame.objectValue done key :: rest } c
      | _ => stateEndValue s c
    else stateBeginString s c
  | Step.beginString => stateBeginString s c
  | Step.endValue => stateEndValue s c
  | Step.endTop => if isSpace c then some s else none
  | Step.inString raw =>
    if c = '"' then some (deliver (JValue.string (unquote raw.reverse)) s)
    else if c = '\\' then some { s with step := Step.inStringEsc (c :: raw) }
    else if c.toNat < 0x20 then none
    else some { s with step := Step.inString (c :: raw) }
  | Step.inStringEsc raw =>
    if c = 'b' ∨ c = 'f' ∨ c = 'n' ∨ c = 'r' ∨ c = 't' ∨ c = '\\' ∨ c = '/' ∨ c = '"' then
      some { s with step := Step.inString (c :: raw) }
    else if c = 'u' then some { s with step := Step.inStringEscU (c :: raw) 0 }
    else none
  | Step.inStringEscU raw seen =>
    if isHex c then
      if seen < 3 then some { s with step := Step.inStringEscU (c :: raw) (seen + 1) }
      else some { s with step := Step.inString (c :: raw) }
    else none
  | Step.neg lit =>
    if c = '0' then some { s with step := Step.state0 (c :: lit) }
    else if '1' ≤ c ∧ c ≤ '9' then some { s with step := Step.state1 (c :: lit) }
    else none
  | Step.state1 lit =>
    if isDigit c then some { s with step := Step.state1 (c :: lit) } else state0 s lit c
  | Step.state0 lit => state0 s lit c
  | Step.dot lit =>
    if isDigit c then some { s with step := Step.dot0 (c :: lit) } else none
  | Step.dot0 lit =>
    if isDigit c then some { s with step := Step.dot0 (c :: lit) }
    else if c = 'e' ∨ c = 'E' then some { s with step := Step.stateE (c :: lit) }
    else endNumber s lit c
  | Step.stateE lit =>
    if c = '+' ∨ c = '-' then some { s with step := Step.stateESign (c :: lit) }
    else stateESign s lit c
  | Step.stateESign lit => stateESign s lit c
  | Step.stateE0 lit =>
    if isDigit c then some { s with step := Step.stateE0 (c :: lit) } else endNumber s lit c
  | Step.literal [] _ => none
  | Step.literal [x] v => if c = x then some (deliver v s) else none
  | Step.literal (x :: y :: rest) v =>
    if c = x then some { s with step := Step.literal (y :: rest) v } else none

/-- The scanner as `checkValid` resets it. -/
def Scanner.init : Scanner := { step := Step.beginValue, parseState := [], result := none }

/-- Feed the scanner a whole text; `none` as soon as a step is an error. -/
def scan : Scanner → List Char → Option Scanner
  | s, [] => some s
  | s, c :: cs =>
    match step s c with
    | none => none
    | some s1 => scan s1 cs

/-- Go's `scanner.eof`: the text is complete when the scanner is at the end of
the top-level value, if need be after one more space. -/
def eof (s : Scanner) : Option JValue :=
  match s.step with
  | Step.endTop => s.result
  | _ =>
    match step s ' ' with
    | some s1 =>
      match s1.step with
      | Step.endTop => s1.result
      | _ => none
    | none => none

/-- The value of a JSON text, `none` when `checkValid` rejects the text (a
`SyntaxError`). -/
def parseJSON (body : String) : Option JValue :=
  match scan Scanner.init body.data with
  | none => none
  | some s => eof s

/-! ## Struct tags and JSON field names -/

/-- The quoted value of a struct tag entry, after its opening quote: the
characters up to the closing quote (a backslash takes the next character with
it) and the rest of the tag; `none` when the quote is never closed. -/
def scanQuoted : List Char → List Char → Option (List Char × List Char)
  | [], _ => none
  | [c], acc => if c = '"' then some (acc.reverse, []) else none
  | c :: d :: cs, acc =>
    if c = '"' then some (acc.reverse, d :: cs)
    else if c = '\\' then scanQuoted cs (d :: c :: acc)
    else scanQuoted (d :: cs) (c :: acc)

/-- A character of the name of a struct tag entry: no space, colon, quote or
control character. -/
def tagNameChar (c : Char) : Bool :=
  ' ' < c && c != ':' && c != '"' && c.toNat != 0x7f

/-- The loop of Go's `reflect.StructTag.Lookup`, one entry `name:"value"` per
round. A round that finds the tag malformed ends the search without a result.
Every round shortens the tag, so `fuel` = length of the tag is never what
ends the search. The value is unquoted as `strconv.Unquote` does for a value
without backslash or newline (the tags of this program have none); a value
with one gives no result here. -/
def lookupLoop : Nat → List Char → String → Option String
  | 0, _, _ => none
  | fuel + 1, tag, key =>
    let tag1 := tag.dropWhile (fun c => c == ' ')
    let name := tag1.takeWhile tagNameChar
    if name = [] then none
    else
      match tag1.drop name.length with
      | colon :: quote :: rest =>
        if colon = ':' ∧ quote = '"' then
          match scanQuoted rest [] with
          | none => none
          | some (value, tag2) =>
            if key = String.mk name then
              if value.all (fun c => c != '\\' && c != '\n') then some (String.mk value) else none
            else lookupLoop fuel tag2 key
        else none
      | _ => none

/-- Go's `reflect.StructTag.Lookup`: the value of `key` in a struct tag. -/
def StructTag.Lookup (tag key : String) : Option String :=
  lookupLoop tag.length tag.data key

/-- Go's `reflect.StructTag.Get`. -/
def StructTag.Get (tag key : String) : String :=
  (StructTag.Lookup tag key).getD ""

/-- Go's `isValidTag` of `encoding/json`, for ASCII names: letters, digits and
the punctuation Go lists. -/
def isValidTag (s : String) : Bool :=
  s.data != [] &&
    s.data.all (fun c => "!#$%&()*+-./:;<=>?@[]^_\x7b|\x7d~ ".data.contains c || c.isAlphanum)

/-- The JSON name `encoding/json` gives an exported struct field (`typeFields`):
the name in the `json` entry of its tag when there is a valid one, else the Go
name of the field; `none` for a field tagged `-`. -/
def jsonFieldName (goName tag : String) : Option String :=
  let t := StructTag.Get tag "json"
  if t = "-" then none
  else
    let name := String.mk (t.data.takeWhile (fun c => c != ','))
    if isValidTag name then some name else some goName

/-- One rune of Go's `foldName`: ASCII letters go to upper case, and the two
other runes whose case orbit holds an ASCII letter (the Kelvin sign and the
long s) go to that letter. -/
def foldRune (c : Char) : Char :=
  if 'a' ≤ c ∧ c ≤ 'z' then Char.ofNat (c.toNat - 32)
  else if c.toNat = 0x212A then 'K'
  else if c.toNat = 0x17F then 'S'
  else c

/-- Go's `foldName`, up to the choice of a representative for the runes that
fold to no ASCII letter (they never meet the ASCII field names of this
program). -/
def foldName (s : String) : String := String.mk (s.data.map foldRune)

/-- The field of a struct an object key selects, by its Go name: an exact
match of the JSON name is preferred, a case-insensitive match is accepted
(`decodeState.object`). `fields` lists the Go name and the tag of each
field. -/
def findField (fields : List (String × String)) (key : String) : Option String :=
  let named := fields.filterMap (fun f => (jsonFieldName f.1 f.2).map (fun n => (f.1, n)))
  match named.find? (fun f => f.2 == key) with
  | some f => some f.1
  | none => (named.find? (fun f => foldName f.2 == foldName key)).map (fun f => f.1)

/-! ## The program's types -/

/-- The struct `JSONModel`. -/
structure JSONModel where
  ID : String
  Object : String
  Created : Int
  OwnedBy : String
  deriving DecidableEq, Repr

/-- The fields of `JSONModel` with their tags, as the source writes them. -/
def JSONModel.fields : List (String × String) :=
  [("ID", "json:\"id\""), ("Object", "json:\"object\""),
   ("Created", "json:\"created\""), ("OwnedBy", "json:\"owned_by\"")]

/-- The zero value of `JSONModel`. -/
def JSONModel.zero : JSONModel := { ID := "", Object := "", Created := 0, OwnedBy := "" }

/-- The fields of the anonymous struct `modelsData` of `getAvailableModels`. -/
def modelsDataFields : List (String × String) := [("Data", "json:\"data\"")]

/-- The struct `TextToSpeechRequest`; `float32` is embedded as `Rat`. -/
structure TextToSpeechRequest where
  Model : String
  Input : String
  Voice : String
  Speed : Rat
  deriving DecidableEq

/-- The fields of `TextToSpeechRequest` with their tags, as the source writes
them: only the first tag quotes its value. -/
def TextToSpeechRequest.fields : List (String × String) :=
  [("Model", "json:\"model\""), ("Input", "json:input"),
   ("Voice", "json:voice"), ("Speed", "json:speed")]

/-! ## Decoding (`encoding/json`, decode.go) -/

/-- An error of `json.Unmarshal`: a `SyntaxError`, or an `UnmarshalTypeError`
with its `Value` (the kind of JSON value met) and `Type` (the Go type it was
to be stored in). -/
inductive JsonError where
  | syntaxError
  | unmarshalType (value : String) (goType : String)
  deriving DecidableEq, Repr

/-- Go's `decodeState.saveError`: only the first error is kept. -/
def saveError (saved : Option JsonError) (err : JsonError) : Option JsonError :=
  match saved with
  | none => some err
  | some e => some e

/-- Go's `strconv.ParseInt(s, 10, 64)`: an optional sign and decimal digits,
within the range of `int64`. -/
def parseInt64 (lit : String) : Option Int :=
  let negative := lit.data.head? == some '-'
  let digits := if lit.data.head? == some '-' ∨ lit.data.head? == some '+' then lit.data.tail else lit.data
  if digits = [] ∨ ¬ digits.all isDigit then none
  else
    let n : Nat := digits.foldl (fun a c => a * 10 + (c.toNat - '0'.toNat)) 0
    let v : Int := if negative then -(n : Int) else (n : Int)
    if -(2 : Int) ^ 63 ≤ v ∧ v < (2 : Int) ^ 63 then some v else none

/-- A JSON value stored in a Go `string`: a string is stored, `null` leaves the
field as it is, anything else is an `UnmarshalTypeError` and the field is left
as it is. -/
def decodeString (cur : String) (saved : Option JsonError) (v : JValue) :
    String × Option JsonError :=
  match v with
  | JValue.string s => (s, saved)
  | JValue.null => (cur, saved)
  | JValue.bool _ => (cur, saveError saved (JsonError.unmarshalType "bool" "string"))
  | JValue.number _ => (cur, saveError saved (JsonError.unmarshalType "number" "string"))
  | JValue.array _ => (cur, saveError saved (JsonError.unmarshalType "array" "string"))
  | JValue.object _ => (cur, saveError saved (JsonError.unmarshalType "object" "string"))

/-- A JSON value stored in a Go `int64`: a number whose literal `ParseInt`
accepts is stored, `null` leaves the field as it is, anything else is an
`UnmarshalTypeError`. -/
def decodeInt64 (cur : Int) (saved : Option JsonError) (v : JValue) :
    Int × Option JsonError :=
  match v with
  | JValue.number lit =>
    match parseInt64 lit with
    | some n => (n, saved)
    | none => (cur, saveError saved (JsonError.unmarshalType ("number " ++ lit) "int64"))
  | JValue.null => (cur, saved)
  | JValue.bool _ => (cur, saveError saved (JsonError.unmarshalType "bool" "int64"))
  | JValue.string _ => (cur, saveError saved (JsonError.unmarshalType "string" "int64"))
  | JValue.array _ => (cur, saveError saved (JsonError.unmarshalType "array" "int64"))
  | JValue.object _ => (cur, saveError saved (JsonError.unmarshalType "object" "int64"))

/-- One member of a JSON object stored in a `JSONModel`: the key selects a
field, the value is decoded into it; a key that selects no field is skipped. -/
def decodeModelMember (st : JSONModel × Option JsonError) (kv : String × JValue) :
    JSONModel × Option JsonError :=
  match findField JSONModel.fields kv.1 with
  | none => st
  | some goName =>
    if goName = "ID" then
      let r := decodeString st.1.ID st.2 kv.2
      ({ st.1 with ID := r.1 }, r.2)
    else if goName = "Object" then
      let r := decodeString st.1.Object st.2 kv.2
      ({ st.1 with Object := r.1 }, r.2)
    else if goName = "Created" then
      let r := decodeInt64 st.1.Created st.2 kv.2
      ({ st.1 with Created := r.1 }, r.2)
    else if goName = "OwnedBy" then
      let r := decodeString st.1.OwnedBy st.2 kv.2
      ({ st.1 with OwnedBy := r.1 }, r.2)
    else st

/-- A JSON value stored in a `JSONModel`: the members of an object are decoded
in the order of the text, `null` leaves the struct as it is, anything else is
an `UnmarshalTypeError`. -/
def decodeModel (cur : JSONModel) (saved : Option JsonError) (v : JValue) :
    JSONModel × Option JsonError :=
  match v with
  | JValue.object members => members.foldl decodeModelMember (cur, saved)
  | JValue.null => (cur, saved)
  | JValue.bool _ => (cur, saveError saved (JsonError.unmarshalType "bool" "main.JSONModel"))
  | JValue.number _ => (cur, saveError saved (JsonError.unmarshalType "number" "main.JSONModel"))
  | JValue.string _ => (cur, saveError saved (JsonError.unmarshalType "string" "main.JSONModel"))
  | JValue.array _ => (cur, saveError saved (JsonError.unmarshalType "array" "main.JSONModel"))

/-- A Go slice of models: the elements it holds, and the elements of its
backing array beyond its length (`spare`), which a later decoding may bring
back into the slice. -/
structure ModelSlice where
  elems : List JSONModel
  spare : List JSONModel

/-- The elements of a JSON array stored in a `[]JSONModel`, in the order of
the text (`decodeState.array`). The element of index `i` is decoded into slot
`i` of the backing array `mem`, on top of what the slot holds; a slot beyond
the backing array is new and holds the zero value. -/
def decodeElems (saved : Option JsonError) :
    List JSONModel → List JValue → List JSONModel × Option JsonError
  | _, [] => ([], saved)
  | mem, v :: vs =>
    let r := decodeModel (mem.headD JSONModel.zero) saved v
    let rs := decodeElems r.2 mem.tail vs
    (r.1 :: rs.1, rs.2)

/-- A JSON value stored in the field `Data []JSONModel`; `none` is the nil
slice. An array is decoded into the backing array of the slice, whose length
becomes the length of the array; an empty array gives a new empty slice;
`null` gives the nil slice; anything else is an `UnmarshalTypeError` and the
slice is left as it is. -/
def decodeData (cur : Option ModelSlice) (saved : Option JsonError) (v : JValue) :
    Option ModelSlice × Option JsonError :=
  match v with
  | JValue.array elems =>
    let mem : List JSONModel :=
      match cur with
      | none => []
      | some s => s.elems ++ s.spare
    let r := decodeElems saved mem elems
    if elems.isEmpty then (some { elems := [], spare := [] }, r.2)
    else (some { elems := r.1, spare := mem.drop r.1.length }, r.2)
  | JValue.null => (none, saved)
  | JValue.bool _ => (cur, saveError saved (JsonError.unmarshalType "bool" "[]main.JSONModel"))
  | JValue.number _ => (cur, saveError saved (JsonError.unmarshalType "number" "[]main.JSONModel"))
  | JValue.string _ => (cur, saveError saved (JsonError.unmarshalType "string" "[]main.JSONModel"))
  | JValue.object _ => (cur, saveError saved (JsonError.unmarshalType "object" "[]main.JSONModel"))

/-- One member of the top-level object stored in `modelsData`. -/
def decodeTopMember (st : Option ModelSlice × Option JsonError) (kv : String × JValue) :
    Option ModelSlice × Option JsonError :=
  match findField modelsDataFields kv.1 with
  | none => st
  | some goName => if goName = "Data" then decodeData st.1 st.2 kv.2 else st

/-- The Go type of `modelsData`, as `reflect` prints it. -/
def modelsDataType : String := "struct \x7b Data []main.JSONModel \"json:\\\"data\\\"\" \x7d"

/-- A JSON value stored in `modelsData` (whose `Data` is the nil slice
before): the result is the field `Data` and the saved error. -/
def decodeTop (v : JValue) : Option ModelSlice × Option JsonError :=
  match v with
  | JValue.object members => members.foldl decodeTopMember (none, none)
  | JValue.null => (none, none)
  | JValue.bool _ => (none, some (JsonError.unmarshalType "bool" modelsDataType))
  | JValue.number _ => (none, some (JsonError.unmarshalType "number" modelsDataType))
  | JValue.string _ => (none, some (JsonError.unmarshalType "string" modelsDataType))
  | JValue.array _ => (none, some (JsonError.unmarshalType "array" modelsDataType))

/-- Go's `json.Unmarshal(body, &modelsData)`: the text is checked first
(`checkValid`), then decoded; the result is the elements of `modelsData.Data`
afterwards (`none` for the nil slice) and the error, which is the syntax
error or the first type error saved while decoding. -/
def jsonUnmarshal (body : String) : Option (List JSONModel) × Option JsonError :=
  match parseJSON body with
  | none => (none, some JsonError.syntaxError)
  | some v => ((decodeTop v).1.map (fun s => s.elems), (decodeTop v).2)

/-! ## Encoding (`encoding/json`, encode.go) -/

/-- The value of a field of the JSON object `json.Marshal` writes for a
`TextToSpeechRequest`: a string or a number. -/
inductive FieldValue where
  | string (s : String)
  | float32 (x : Rat)
  deriving DecidableEq

/-- Go's `json.Marshal(reqBody)`, as the JSON object the bytes denote: the
members in the order of the struct's fields, each under the JSON name of its
field. Strings and finite numbers always encode, so there is no error. -/
def jsonMarshal (r : TextToSpeechRequest) : Except String (List (String × FieldValue)) :=
  Except.ok
    ((List.zip TextToSpeechRequest.fields
        [FieldValue.string r.Model, FieldValue.string r.Input,
         FieldValue.string r.Voice, FieldValue.float32 r.Speed]).filterMap
      (fun fv => (jsonFieldName fv.1.1 fv.1.2).map (fun n => (n, fv.2))))

/-! ## The world -/

/-- An HTTP request as the program builds it. The body, when there is one, is
the JSON object `json.Marshal` wrote. -/
structure Request where
  Method : String
  URL : String
  Header : List (String × String)
  Body : Option (List (String × FieldValue))
  deriving DecidableEq

/-- An HTTP response as the program and the client use it: the status code,
the value of the `Location` header when the response has one, and what
`io.ReadAll(resp.Body)` gives, the text of the body or a read error. -/
structure Response where
  StatusCode : Int
  Location : Option String
  Body : Except String String

/-- What the program does not decide: the environment variables; the answer
of the network to one HTTP request (a response or a transport error); the
absolute URL a `Location` header resolves to against the URL of the request
(or the error of `URL.Parse`); the headers the client gives a request that
follows a redirect (from the first request and the new URL); the error, if
any, with which `os.Create` refuses a path; and the text `Error()` gives a
JSON error. -/
structure World where
  environ : String → Option String
  roundTrip : Request → Except String Response
  resolveLocation : String → String → Except String String
  redirectHeader : Request → String → List (String × String)
  createError : String → Option String
  jsonErrorText : JsonError → String

/-- What the program changes: standard output, the requests handed to
`client.Do` (in order), the HTTP requests the client put on the wire (in
order), and the files (path to content, in bytes). -/
structure State where
  stdout : String
  sent : List Request
  wire : List Request
  files : String → Option (List Nat)

/-- Go's `os.Getenv`: the empty string for a variable that is not set. -/
def osGetenv (w : World) (name : String) : String := (w.environ name).getD ""

/-- A character of an HTTP token (`net/http` `validMethod`). -/
def isTokenChar (c : Char) : Bool :=
  c.isAlphanum || "!#$%&*+-.^_|~".data.contains c || c.toNat = 0x27 || c.toNat = 0x60

/-- Go's `http.NewRequest`, with the part of its validation that is modelled:
an empty method stands for GET, the method is a token, and the URL holds no
control character. The program passes constants that satisfy both. -/
def newRequest (method url : String) (body : Option (List (String × FieldValue))) :
    Except String Request :=
  let method1 := if method = "" then "GET" else method
  if ¬ method1.data.all isTokenChar then
    Except.error ("net/http: invalid method \"" ++ method1 ++ "\"")
  else if url.data.any (fun c => c.toNat < 0x20 || c.toNat = 0x7f) then
    Except.error ("parse \"" ++ url ++ "\": net/url: invalid control character in URL")
  else Except.ok { Method := method1, URL := url, Header := [], Body := body }

/-- Go's `Header.Add`. -/
def Request.headerAdd (r : Request) (key value : String) : Request :=
  { r with Header := r.Header ++ [(key, value)] }

/-- Go's `Header.Set`. -/
def Request.headerSet (r : Request) (key value : String) : Request :=
  { r with Header := r.Header.filter (fun h => h.1 != key) ++ [(key, value)] }

/-- Go's `httpguts.ValidHeaderFieldValue`: no control character other than
the tab. -/
def validHeaderFieldValue (v : String) : Bool :=
  v.data.all (fun c => !(c.toNat < 0x20 || c.toNat == 0x7f) || c == '\t')

/-- Go's `urlErrorOp`: the method with its first letter kept and the rest in
lower case, `Get` for the empty method. -/
def urlErrorOp (method : String) : String :=
  match method.data with
  | [] => "Get"
  | c :: cs => String.mk (c :: cs.map Char.toLower)

/-- The text of the `url.Error` in which the client wraps its errors. -/
def urlError (op url err : String) : String :=
  op ++ " \"" ++ url ++ "\": " ++ err

/-- One request through the transport (`Transport.roundTrip`): a request with
an invalid header value is refused before anything is put on the wire;
otherwise the request goes on the wire and the network answers. The result is
the answer and the requests put on the wire. -/
def transportSend (w : World) (req : Request) : Except String Response × List Request :=
  match req.Header.find? (fun h => !validHeaderFieldValue h.2) with
  | some h =>
    (Except.error ("net/http: invalid header field value for \"" ++ h.1 ++ "\""), [])
  | none => (w.roundTrip req, [req])

/-- Go's `redirectBehavior`: whether the client follows the response, and then
the method of the next request and whether it carries the body again. -/
def redirectBehavior (reqMethod : String) (resp : Response) : Option (String × Bool) :=
  if resp.StatusCode = 301 ∨ resp.StatusCode = 302 ∨ resp.StatusCode = 303 then
    some (if reqMethod ≠ "GET" ∧ reqMethod ≠ "HEAD" then "GET" else reqMethod, false)
  else if resp.StatusCode = 307 ∨ resp.StatusCode = 308 then some (reqMethod, true)
  else none

/-- The loop of Go's `Client.do` with the default redirect policy. `fuel` is
the number of requests the policy still allows (10 at first), `ireq` the
first request, `req` the request to send now, `loc` the `Location` that led to
it. A response that is no redirect, or a redirect without `Location`, is
returned; otherwise the next request goes to the resolved URL. The result is
what `client.Do` returns and the requests put on the wire. -/
def doLoop (w : World) (ireq : Request) :
    Nat → Request → String → Except String Response × List Request
  | 0, _, loc =>
    (Except.error (urlError (urlErrorOp ireq.Method) loc "stopped after 10 redirects"), [])
  | fuel + 1, req, _ =>
    match transportSend w req with
    | (Except.error err, wire) =>
      (Except.error (urlError (urlErrorOp ireq.Method) req.URL err), wire)
    | (Except.ok resp, wire) =>
      match redirectBehavior req.Method resp with
      | none => (Except.ok resp, wire)
      | some (method, includeBody) =>
        match resp.Location with
        | none => (Except.ok resp, wire)
        | some loc =>
          if loc = "" then (Except.ok resp, wire)
          else
            match w.resolveLocation req.URL loc with
            | Except.error err =>
              (Except.error (urlError (urlErrorOp ireq.Method) req.URL
                ("failed to parse Location header \"" ++ loc ++ "\": " ++ err)), wire)
            | Except.ok url =>
              let next : Request :=
                { Method := method, URL := url, Header := w.redirectHeader ireq url,
                  Body := if includeBody then ireq.Body else none }
              let r := doLoop w ireq fuel next loc
              (r.1, wire ++ r.2)

/-- What `client.Do(req)` returns with the zero-value `http.Client`, and the
requests it puts on the wire. -/
def clientRun (w : World) (req : Request) : Except String Response × List Request :=
  doLoop w req 10 req ""

/-- Go's `client.Do(req)`: the request is recorded as handed to the client,
the requests the client puts on the wire are recorded, and the client's
result is returned. -/
def clientDo (w : World) (req : Request) (st : State) : Except String Response × State :=
  ((clientRun w req).1,
    { st with sent := st.sent ++ [req], wire := st.wire ++ (clientRun w req).2 })

/-- Go's `os.Create`: unless the world refuses the path, the file exists
afterwards and is empty, whatever it held before. -/
def osCreate (w : World) (filePath : String) (st : State) : Option String × State :=
  match w.createError filePath with
  | some err => (some err, st)
  | none => (none, { st with files := fun p => if p = filePath then some [] else st.files p })

/-- Go's `fmt.Println` of one line already formatted. -/
def println (line : String) (st : State) : State :=
  { st with stdout := st.stdout ++ line ++ "\n" }

/-! ## The program -/

/-- The function `getAvailableModels`: the returned pair (slice, error), `none`
being the nil slice and the nil error, and the state afterwards. -/
def getAvailableModels (w : World) (openAIAPIKey : String) (st : State) :
    (Option (List JSONModel) × Option String) × State :=
  match newRequest "GET" "https://api.openai.com/v1/models" none with
  | Except.error err => ((none, some ("error creating request: " ++ err)), st)
  | Except.ok req0 =>
    let req := req0.headerAdd "Authorization" ("Bearer " ++ openAIAPIKey)
    match clientDo w req st with
    | (Except.error err, st1) => ((none, some ("error sending request: " ++ err)), st1)
    | (Except.ok resp, st1) =>
      let st2 := println ("Response Status Code: " ++ toString resp.StatusCode) st1
      match resp.Body with
      | Except.error err => ((none, some ("error reading response body: " ++ err)), st2)
      | Except.ok body =>
        match jsonUnmarshal body with
        | (_, some err) =>
          ((none, some ("error unmarshaling JSON: " ++ w.jsonErrorText err)), st2)
        | (data, none) => ((data, none), st2)

def ttsURL : String := "https://api.openai.com/v1/audio/speech"
def ttsModel : String := "tts-1"
def ttsVoice : String := "onyx"
def ttsSpeed : Rat := 1.0
def ttsResponseFormat : String := "mp3"

/-- Go's `http.StatusOK`. -/
def StatusOK : Int := 200

/-- The function `convertTextToSpeech`: the returned error (`none` is nil) and
the state afterwards. -/
def convertTextToSpeech (w : World) (apiKey text filePath : String) (st : State) :
    Option String × State :=
  let reqBody : TextToSpeechRequest :=
    { Model := ttsModel, Input := text, Voice := ttsVoice, Speed := ttsSpeed }
  match jsonMarshal reqBody with
  | Except.error err => (some ("Could not marshall request body to JSON: " ++ err), st)
  | Except.ok bodyBytes =>
    match newRequest "POST" ttsURL (some bodyBytes) with
    | Except.error err => (some ("Could not create request: " ++ err), st)
    | Except.ok req0 =>
      let req := (req0.headerAdd "Authorization" ("Bearer " ++ apiKey)).headerSet
        "Content-Type" "application/json"
      match clientDo w req st with
      | (Except.error err, st1) => (some ("Error sending request: " ++ err), st1)
      | (Except.ok resp, st1) =>
        if resp.StatusCode ≠ StatusOK then
          (some ("Unexpected Status Code: " ++ toString resp.StatusCode), st1)
        else
          match osCreate w filePath st1 with
          | (some err, st2) => (some ("Could not create file: " ++ err), st2)
          | (none, st2) => (none, st2)

/-- The line `main` prints for a model. -/
def modelLine (model : JSONModel) : String :=
  "Model ID: " ++ model.ID ++ ", Object: " ++ model.Object ++ ", Created: " ++
    toString model.Created ++ ", OwnedBy: " ++ model.OwnedBy ++ "\n"

/-- Go's `fmt.Printf` of the model line. -/
def printModel (st : State) (model : JSONModel) : State :=
  { st with stdout := st.stdout ++ modelLine model }

/-- The function `main`: the state afterwards. -/
def main (w : World) (st : State) : State :=
  let openAIAPIKey := osGetenv w "OPENAI_API_KEY"
  if openAIAPIKey = "" then
    println "OPENAI_API_KEY environment variable is not set." st
  else
    match getAvailableModels w openAIAPIKey st with
    | ((_, some err), st1) => println ("Error: " ++ err) st1
    | ((models, none), st1) => (models.getD []).foldl printModel st1

/-! ## Vocabulary of the statements -/

/-- The request `convertTextToSpeech` hands to `client.Do`. -/
def speechRequest (apiKey text : String) : Request :=
  { Method := "POST", URL := ttsURL,
    Header := [("Authorization", "Bearer " ++ apiKey), ("Content-Type", "application/json")],
    Body := some [("model", FieldValue.string ttsModel), ("Input", FieldValue.string text),
                  ("Voice", FieldValue.string ttsVoice), ("Speed", FieldValue.float32 ttsSpeed)] }

/-- The request `getAvailableModels` hands to `client.Do`. -/
def modelsRequest (openAIAPIKey : String) : Request :=
  { Method := "GET", URL := "https://api.openai.com/v1/models",
    Header := [("Authorization", "Bearer " ++ openAIAPIKey)], Body := none }

/-- JSON escaping of one character of a string: the quote and the backslash
take a backslash, a control character is written as a `\u00XX` escape, any
other character stands for itself. -/
def escapeChar (c : Char) : List Char :=
  if c = '"' then ['\\', '"']
  else if c = '\\' then ['\\', '\\']
  else if c.toNat < 0x20 then
    ['\\', 'u', '0', '0', Nat.digitChar (c.toNat / 16), Nat.digitChar (c.toNat % 16)]
  else [c]

/-- JSON escaping of the characters of a string. -/
def escapeChars : List Char → List Char
  | [] => []
  | c :: cs => escapeChar c ++ escapeChars cs

/-- A string written as a JSON string literal. -/
def writeString (s : String) : List Char :=
  '"' :: (escapeChars s.data ++ ['"'])

/-- A model written as a JSON object: the members `id`, `object`, `created`
and `owned_by` in the order of the interface, without white space, `created`
in decimal. -/
def writeModel (m : JSONModel) : List Char :=
  "\x7b\"id\":".data ++ (writeString m.ID ++ (",\"object\":".data ++ (writeString m.Object ++
    (",\"created\":".data ++ ((toString m.Created).data ++ (",\"owned_by\":".data ++
      (writeString m.OwnedBy ++ ['}'])))))))

/-- The models after the first of a JSON array, each after its comma. -/
def writeMore : List JSONModel → List Char
  | [] => []
  | m :: ms => ',' :: (writeModel m ++ writeMore ms)

/-- The elements of a JSON array of models, separated by commas. -/
def writeModels : List JSONModel → List Char
  | [] => []
  | m :: ms => writeModel m ++ writeMore ms

/-- The JSON text of the object whose one member `data` is the array of the
models `ms`, as in the example of the interface. -/
def modelsBody (ms : List JSONModel) : String :=
  String.mk ("\x7b\"data\":[".data ++ (writeModels ms ++ "]\x7d".data))

/-- The JSON value of a model: the object with the members `id`, `object`,
`created` and `owned_by`. -/
def modelObject (m : JSONModel) : JValue :=
  JValue.object [("id", JValue.string m.ID), ("object", JValue.string m.Object),
    ("created", JValue.number (toString m.Created)), ("owned_by", JValue.string m.OwnedBy)]

/-- The value of a list of decimal digits, most significant first. -/
def decimalValue (ds : List Char) : Nat :=
  Nat.ofDigits 10 (ds.reverse.map (fun c => c.toNat - 48))

/-- A text that is a decimal integer in the range of `int64`: an optional
sign, then one or more decimal digits, the integer written lying between
-2^63 and 2^63 - 1. (The sign may be `+` or `-`, as for `strconv.ParseInt`; a
JSON number never carries `+`. A JSON number with a fraction or an exponent
is no such text.) -/
def isInt64Literal (lit : String) : Bool :=
  match lit.data with
  | [] => false
  | c :: cs =>
    if c = '-' then !cs.isEmpty && cs.all isDigit && decide (decimalValue cs ≤ 2 ^ 63)
    else if c = '+' then !cs.isEmpty && cs.all isDigit && decide (decimalValue cs < 2 ^ 63)
    else (c :: cs).all isDigit && decide (decimalValue (c :: cs) < 2 ^ 63)

/-- A JSON value that cannot be stored in a Go `string`: anything but a string
or `null`. -/
def stringMismatch : JValue → Bool
  | JValue.string _ => false
  | JValue.null => false
  | _ => true

/-- A JSON value that cannot be stored in a Go `int64`: anything but `null` or
a number whose literal is a decimal integer in the range of `int64`. -/
def int64Mismatch : JValue → Bool
  | JValue.number lit => !isInt64Literal lit
  | JValue.null => false
  | _ => true

/-- A member of a model object whose key selects a field the value cannot be
stored in. -/
def memberMismatch (kv : String × JValue) : Bool :=
  match findField JSONModel.fields kv.1 with
  | none => false
  | some goName =>
    if goName = "Created" then int64Mismatch kv.2
    else if goName = "ID" ∨ goName = "Object" ∨ goName = "OwnedBy" then stringMismatch kv.2
    else false

/-- A JSON value that cannot be stored in a `JSONModel`: neither `null` nor an
object, or an object with a mismatching member. -/
def modelMismatch : JValue → Bool
  | JValue.object members => members.any memberMismatch
  | JValue.null => false
  | _ => true

/-- A JSON value that cannot be stored in a `[]JSONModel`: neither `null` nor
an array, or an array with a mismatching element. -/
def dataMismatch : JValue → Bool
  | JValue.array elems => elems.any modelMismatch
  | JValue.null => false
  | _ => true

/-- A JSON value with a type mismatch against `modelsData`: neither `null` nor
an object, or an object one of whose members selects the field `Data` with a
value that cannot be stored in it. Members that select no field, and fields
that are missing, are no mismatch. -/
def typeMismatch : JValue → Bool
  | JValue.object members =>
    members.any (fun kv => findField modelsDataFields kv.1 == some "Data" && dataMismatch kv.2)
  | JValue.null => false
  | _ => true

/-- A response body `json.Unmarshal` cannot store in `modelsData`: a text that
is not valid JSON, or a JSON value with a type mismatch. -/
def undecodable (body : String) : Bool :=
  match parseJSON body with
  | none => true
  | some v => typeMismatch v

/-- The body of the example of the interface: one model. -/
def sampleBody : String :=
  "\x7b\"data\":[\x7b\"id\":\"m1\",\"object\":\"model\",\"created\":1,\"owned_by\":\"openai\"\x7d]\x7d"

/-- A world with the given value of `OPENAI_API_KEY` that answers every
request with the given status code and body, and refuses no file. -/
def sampleWorld (key : Option String) (code : Int) (body : String) : World :=
  { environ := fun name => if name = "OPENAI_API_KEY" then key else none,
    roundTrip := fun _ => Except.ok { StatusCode := code, Location := none, Body := Except.ok body },
    resolveLocation := fun _ loc => Except.ok loc,
    redirectHeader := fun ireq _ => ireq.Header,
    createError := fun _ => none,
    jsonErrorText := fun _ => "invalid JSON" }

/-- A world with the key `key` whose models endpoint answers 302 with a
`Location` on another host, every other URL answering 200 with the sample
body; the request that follows the redirect carries a `Referer` and no
`Authorization`. -/
def redirectWorld (key : String) : World :=
  { environ := fun name => if name = "OPENAI_API_KEY" then some key else none,
    roundTrip := fun req =>
      if req.URL = "https://api.openai.com/v1/models" then
        Except.ok { StatusCode := 302, Location := some "https://example.com/v1/models",
                    Body := Except.ok "" }
      else Except.ok { StatusCode := 200, Location := none, Body := Except.ok sampleBody },
    resolveLocation := fun _ loc => Except.ok loc,
    redirectHeader := fun _ _ => [("Referer", "https://api.openai.com/v1/models")],
    createError := fun _ => none,
    jsonErrorText := fun _ => "invalid JSON" }

/-- The state before the program runs: nothing printed, nothing handed to the
client, nothing on the wire, no file. -/
def State.initial : State := { stdout := "", sent := [], wire := [], files := fun _ => none }

/-! ## Helper lemmas -/

theorem newRequest_post (body : Option (List (String × FieldValue))) :
    newRequest "POST" ttsURL body =
      Except.ok { Method := "POST", URL := ttsURL, Header := [], Body := body } := by
  rfl

theorem newRequest_get :
    newRequest "GET" "https://api.openai.com/v1/models" none =
      Except.ok { Method := "GET", URL := "https://api.openai.com/v1/models", Header := [],
                  Body := none } := by
  rfl

theorem jsonMarshal_eq (r : TextToSpeechRequest) :
    jsonMarshal r = Except.ok [("model", FieldValue.string r.Model),
      ("Input", FieldValue.string r.Input), ("Voice", FieldValue.string r.Voice),
      ("Speed", FieldValue.float32 r.Speed)] := by
  rfl

/-- What `convertTextToSpeech` does, by cases on what `client.Do` returns. -/
theorem convertTextToSpeech_eq (w : World) (apiKey text filePath : String) (st : State) :
    convertTextToSpeech w apiKey text filePath st =
      match (clientDo w (speechRequest apiKey text) st).1 with
      | Except.error err =>
        (some ("Error sending request: " ++ err), (clientDo w (speechRequest apiKey text) st).2)
      | Except.ok resp =>
        if resp.StatusCode ≠ StatusOK then
          (some ("Unexpected Status Code: " ++ toString resp.StatusCode),
            (clientDo w (speechRequest apiKey text) st).2)
        else
          match w.createError filePath with
          | some err =>
            (some ("Could not create file: " ++ err),
              (clientDo w (speechRequest apiKey text) st).2)
          | none =>
            (none, { (clientDo w (speechRequest apiKey text) st).2 with
                     files := fun p => if p = filePath then some [] else st.files p }) := by
  have hreq : ((Request.mk "POST" ttsURL [] (some [("model", FieldValue.string ttsModel),
      ("Input", FieldValue.string text), ("Voice", FieldValue.string ttsVoice),
      ("Speed", FieldValue.float32 ttsSpeed)])).headerAdd "Authorization"
      ("Bearer " ++ apiKey)).headerSet "Content-Type" "application/json" =
      speechRequest apiKey text := by
    rfl
  unfold convertTextToSpeech
  simp only [jsonMarshal_eq, newRequest_post, hreq]
  rcases hd : clientDo w (speechRequest apiKey text) st with ⟨_ | r, st1⟩
  · rfl
  · have hfiles : st1.files = st.files := by
      have : (clientDo w (speechRequest apiKey text) st).2.files = st.files := rfl
      rw [hd] at this
      exact this
    simp only []
    by_cases hs : r.StatusCode = StatusOK
    · simp only [hs, ne_eq, not_true_eq_false, if_false, osCreate]
      cases w.createError filePath with
      | none => simp only [hfiles]
      | some e => rfl
    · simp only [hs, ne_eq, not_false_eq_true, if_true]

/-- What `getAvailableModels` does, by cases on what `client.Do` returns. -/
theorem getAvailableModels_eq (w : World) (key : String) (st : State) :
    getAvailableModels w key st =
      match (clientDo w (modelsRequest key) st).1 with
      | Except.error err =>
        ((none, some ("error sending request: " ++ err)), (clientDo w (modelsRequest key) st).2)
      | Except.ok resp =>
        match resp.Body with
        | Except.error err =>
          ((none, some ("error reading response body: " ++ err)),
            println ("Response Status Code: " ++ toString resp.StatusCode)
              (clientDo w (modelsRequest key) st).2)
        | Except.ok body =>
          match jsonUnmarshal body with
          | (_, some err) =>
            ((none, some ("error unmarshaling JSON: " ++ w.jsonErrorText err)),
              println ("Response Status Code: " ++ toString resp.StatusCode)
                (clientDo w (modelsRequest key) st).2)
          | (data, none) =>
            ((data, none),
              println ("Response Status Code: " ++ toString resp.StatusCode)
                (clientDo w (modelsRequest key) st).2) := by
  have hreq : (Request.mk "GET" "https://api.openai.com/v1/models" [] none).headerAdd
      "Authorization" ("Bearer " ++ key) = modelsRequest key := by
    rfl
  unfold getAvailableModels
  simp only [newRequest_get, hreq]
  rcases hd : clientDo w (modelsRequest key) st with ⟨_ | r, st1⟩ <;> rfl

theorem clientDo_sent (w : World) (req : Request) (st : State) :
    (clientDo w req st).2.sent = st.sent ++ [req] := rfl

theorem clientDo_stdout (w : World) (req : Request) (st : State) :
    (clientDo w req st).2.stdout = st.stdout := rfl

theorem clientDo_files (w : World) (req : Request) (st : State) :
    (clientDo w req st).2.files = st.files := rfl

theorem clientDo_wire (w : World) (req : Request) (st : State) :
    (clientDo w req st).2.wire = st.wire ++ (clientRun w req).2 := rfl

theorem clientDo_result (w : World) (req : Request) (st : State) :
    (clientDo w req st).1 = (clientRun w req).1 := rfl

theorem convertTextToSpeech_sent (w : World) (apiKey text filePath : String) (st : State) :
    (convertTextToSpeech w apiKey text filePath st).2.sent =
      st.sent ++ [speechRequest apiKey text] := by
  rw [convertTextToSpeech_eq]
  cases (clientDo w (speechRequest apiKey text) st).1 with
  | error e => rfl
  | ok r =>
    simp only []
    split_ifs
    · rfl
    · cases w.createError filePath <;> rfl

theorem saveError_isSome (saved : Option JsonError) (e : JsonError) :
    (saveError saved e).isSome = true := by
  cases saved <;> rfl

theorem decodeString_error (cur : String) (saved : Option JsonError) (v : JValue) :
    (decodeString cur saved v).2.isSome = (saved.isSome || stringMismatch v) := by
  cases v <;> simp [decodeString, stringMismatch, saveError_isSome]

theorem foldl_digits_eq (ds : List Char) (a : Nat) :
    ds.foldl (fun a c => a * 10 + (c.toNat - '0'.toNat)) a =
      Nat.ofDigits 10 (ds.reverse.map (fun c => c.toNat - 48) ++ [a]) := by
  induction ds generalizing a with
  | nil => simp
  | cons c ds ih =>
    rw [List.foldl_cons, ih]
    have h0 : '0'.toNat = 48 := rfl
    simp only [h0, List.reverse_cons, List.map_append, List.map_cons, List.map_nil,
      List.append_assoc, List.singleton_append, Nat.ofDigits_append, Nat.ofDigits_cons,
      Nat.ofDigits_nil]
    ring

theorem foldl_digits_value (ds : List Char) :
    ds.foldl (fun a c => a * 10 + (c.toNat - '0'.toNat)) 0 = decimalValue ds := by
  rw [foldl_digits_eq, decimalValue, Nat.ofDigits_append]
  simp

theorem int64_range_neg (n : Nat) :
    (-(2 : Int) ^ 63 ≤ -(n : Int) ∧ -(n : Int) < (2 : Int) ^ 63) ↔ n ≤ 2 ^ 63 := by
  norm_num
  omega

theorem int64_range_pos (n : Nat) :
    (-(2 : Int) ^ 63 ≤ (n : Int) ∧ (n : Int) < (2 : Int) ^ 63) ↔ n < 2 ^ 63 := by
  norm_num
  omega

theorem parseInt64_isSome (lit : String) : (parseInt64 lit).isSome = isInt64Literal lit := by
  unfold parseInt64 isInt64Literal
  cases hd : lit.data with
  | nil => simp
  | cons c cs =>
    by_cases hm : c = '-'
    · subst hm
      simp only [List.head?_cons, beq_self_eq_true, true_or, if_true, List.tail_cons,
        foldl_digits_value]
      by_cases h1 : cs = []
      · simp [h1]
      · by_cases h2 : cs.all isDigit = true
        · simp only [h1, h2, false_or, not_true_eq_false, if_false, int64_range_neg]
          have h1e : cs.isEmpty = false := by cases cs <;> simp_all
          split_ifs with h3 <;> simp [h1e] <;> norm_num at h3 <;> omega
        · simp [h1, h2]
    · by_cases hp : c = '+'
      · subst hp
        have hne : (some '+' == some '-') = false := by decide
        simp only [List.head?_cons, hne, beq_self_eq_true, or_true, if_true, List.tail_cons,
          foldl_digits_value, Bool.false_eq_true, if_false]
        by_cases h1 : cs = []
        · simp [h1]
        · by_cases h2 : cs.all isDigit = true
          · simp only [h1, h2, false_or, not_true_eq_false, if_false, int64_range_pos]
            have h1e : cs.isEmpty = false := by cases cs <;> simp_all
            split_ifs with h3 <;> simp [h1e] <;> norm_num at h3 <;> omega
          · simp [h1, h2]
      · have hne1 : (some c == some '-') = false := by simp [hm]
        have hne2 : (some c == some '+') = false := by simp [hp]
        simp only [List.head?_cons, hne1, hne2, or_self, Bool.false_eq_true, if_false,
          foldl_digits_value, hm, hp]
        by_cases h2 : (c :: cs).all isDigit = true
        · simp only [h2, List.cons_ne_nil, false_or, not_true_eq_false, if_false,
            int64_range_pos]
          split_ifs with h3 <;> simp <;> norm_num at h3 <;> omega
        · simp [h2]

theorem decodeInt64_error (cur : Int) (saved : Option JsonError) (v : JValue) :
    (decodeInt64 cur saved v).2.isSome = (saved.isSome || int64Mismatch v) := by
  cases v with
  | number lit =>
    have hlit := parseInt64_isSome lit
    cases h : parseInt64 lit <;> rw [h] at hlit <;>
      simp [decodeInt64, int64Mismatch, saveError_isSome, h, ← hlit]
  | _ => simp [decodeInt64, int64Mismatch, saveError_isSome]

theorem decodeModelMember_error (st : JSONModel × Option JsonError) (kv : String × JValue) :
    (decodeModelMember st kv).2.isSome = (st.2.isSome || memberMismatch kv) := by
  unfold decodeModelMember memberMismatch
  cases findField JSONModel.fields kv.1 with
  | none => simp
  | some g =>
    simp only []
    by_cases h1 : g = "ID"
    · subst h1; simp [decodeString_error]
    · by_cases h2 : g = "Object"
      · subst h2; simp [decodeString_error]
      · by_cases h3 : g = "Created"
        · subst h3; simp [decodeInt64_error]
        · by_cases h4 : g = "OwnedBy"
          · subst h4; simp [decodeString_error]
          · simp [h1, h2, h3, h4]

theorem foldl_decodeModelMember_error (members : List (String × JValue))
    (st : JSONModel × Option JsonError) :
    (members.foldl decodeModelMember st).2.isSome =
      (st.2.isSome || members.any memberMismatch) := by
  induction members generalizing st with
  | nil => simp
  | cons kv rest ih =>
    simp only [List.foldl_cons, ih, decodeModelMember_error, List.any_cons, Bool.or_assoc]

theorem decodeModel_error (cur : JSONModel) (saved : Option JsonError) (v : JValue) :
    (decodeModel cur saved v).2.isSome = (saved.isSome || modelMismatch v) := by
  cases v <;> simp [decodeModel, modelMismatch, saveError_isSome, foldl_decodeModelMember_error]

theorem decodeElems_error (elems : List JValue) (saved : Option JsonError)
    (mem : List JSONModel) :
    (decodeElems saved mem elems).2.isSome = (saved.isSome || elems.any modelMismatch) := by
  induction elems generalizing saved mem with
  | nil => simp [decodeElems]
  | cons v rest ih =>
    simp only [decodeElems, ih, decodeModel_error, List.any_cons, Bool.or_assoc]

theorem decodeData_error (cur : Option ModelSlice) (saved : Option JsonError)
    (v : JValue) :
    (decodeData cur saved v).2.isSome = (saved.isSome || dataMismatch v) := by
  cases v with
  | array elems =>
    simp only [decodeData, dataMismatch]
    split_ifs <;> simp only [decodeElems_error]
  | _ => simp [decodeData, dataMismatch, saveError_isSome]

theorem decodeTopMember_error (st : Option ModelSlice × Option JsonError)
    (kv : String × JValue) :
    (decodeTopMember st kv).2.isSome =
      (st.2.isSome || (findField modelsDataFields kv.1 == some "Data" && dataMismatch kv.2)) := by
  unfold decodeTopMember
  cases findField modelsDataFields kv.1 with
  | none => simp
  | some g =>
    by_cases h : g = "Data"
    · subst h; simp [decodeData_error]
    · simp [h]

theorem foldl_decodeTopMember_error (members : List (String × JValue))
    (st : Option ModelSlice × Option JsonError) :
    (members.foldl decodeTopMember st).2.isSome =
      (st.2.isSome || members.any
        (fun kv => findField modelsDataFields kv.1 == some "Data" && dataMismatch kv.2)) := by
  induction members generalizing st with
  | nil => simp
  | cons kv rest ih =>
    simp only [List.foldl_cons, ih, decodeTopMember_error, List.any_cons, Bool.or_assoc]

theorem decodeTop_error (v : JValue) : (decodeTop v).2.isSome = typeMismatch v := by
  cases v <;> simp [decodeTop, typeMismatch, foldl_decodeTopMember_error]

theorem jsonUnmarshal_error (body : String) :
    (jsonUnmarshal body).2.isSome = undecodable body := by
  unfold jsonUnmarshal undecodable
  cases parseJSON body with
  | none => rfl
  | some v => exact decodeTop_error v

theorem createFile_ne_unexpectedStatus (a b : String) :
    "Could not create file: " ++ a ≠ "Unexpected Status Code: " ++ b := by
  intro h
  have h1 := congrArg String.data h
  rw [String.data_append, String.data_append] at h1
  have h2 : "Could not create file: ".data = 'C' :: "ould not create file: ".data := rfl
  have h3 : "Unexpected Status Code: ".data = 'U' :: "nexpected Status Code: ".data := rfl
  rw [h2, h3] at h1
  simp at h1

theorem foldl_printModel_sent (models : List JSONModel) (st : State) :
    (models.foldl printModel st).sent = st.sent := by
  induction models generalizing st with
  | nil => rfl
  | cons m rest ih => simp only [List.foldl_cons, ih, printModel]

theorem foldl_append_eq (l : List String) (init : String) :
    l.foldl (fun r s => r ++ s) init = init ++ String.join l := by
  induction l generalizing init with
  | nil => simp [String.join]
  | cons a rest ih =>
    have h : String.join (a :: rest) = ("" ++ a) ++ String.join rest := ih ("" ++ a)
    rw [List.foldl_cons, ih, h, String.append_assoc]
    simp

theorem join_cons (a : String) (l : List String) :
    String.join (a :: l) = a ++ String.join l := by
  have h : String.join (a :: l) = ("" ++ a) ++ String.join l := foldl_append_eq l ("" ++ a)
  rw [h]
  simp

theorem foldl_printModel_stdout (models : List JSONModel) (st : State) :
    (models.foldl printModel st).stdout = st.stdout ++ String.join (models.map modelLine) := by
  induction models generalizing st with
  | nil => simp [String.join]
  | cons m rest ih =>
    simp only [List.foldl_cons, ih, printModel, List.map_cons, join_cons, String.append_assoc]

theorem getAvailableModels_state (w : World) (key : String) (st : State) :
    (getAvailableModels w key st).2.sent = st.sent ++ [modelsRequest key] ∧
      (getAvailableModels w key st).2.wire = st.wire ++ (clientRun w (modelsRequest key)).2 := by
  rw [getAvailableModels_eq]
  cases (clientDo w (modelsRequest key) st).1 with
  | error e => exact ⟨rfl, rfl⟩
  | ok r =>
    simp only []
    cases r.Body with
    | error e => exact ⟨rfl, rfl⟩
    | ok body =>
      simp only []
      rcases jsonUnmarshal body with ⟨d, _ | e⟩ <;> exact ⟨rfl, rfl⟩

theorem getAvailableModels_stdout (w : World) (key : String) (st : State) (resp : Response)
    (hresp : (clientDo w (modelsRequest key) st).1 = Except.ok resp) :
    (getAvailableModels w key st).2.stdout =
      st.stdout ++ ("Response Status Code: " ++ toString resp.StatusCode) ++ "\n" := by
  rw [getAvailableModels_eq, hresp]
  simp only []
  cases resp.Body with
  | error e => rfl
  | ok body =>
    simp only []
    rcases jsonUnmarshal body with ⟨d, _ | e⟩ <;> rfl

theorem main_of_key (w : World) (st : State) (key : String)
    (henv : w.environ "OPENAI_API_KEY" = some key) (hkey : key ≠ "") :
    main w st =
      match getAvailableModels w key st with
      | ((_, some err), st1) => println ("Error: " ++ err) st1
      | ((models, none), st1) => (models.getD []).foldl printModel st1 := by
  unfold main
  simp only [osGetenv, henv, Option.getD_some, hkey, if_false]

theorem char_le_iff (a b : Char) : a ≤ b ↔ a.toNat ≤ b.toNat := by
  rw [Char.le_def]
  exact Iff.rfl

theorem char_eq_of_toNat (c : Char) (n : Nat) (h : c.toNat = n) : c = Char.ofNat n := by
  rw [← h, Char.ofNat_toNat]

theorem isDigit_cases (c : Char) (h : isDigit c = true) :
    c = '0' ∨ c = '1' ∨ c = '2' ∨ c = '3' ∨ c = '4' ∨ c = '5' ∨ c = '6' ∨ c = '7' ∨
      c = '8' ∨ c = '9' := by
  simp only [isDigit, Bool.and_eq_true, decide_eq_true_eq, char_le_iff] at h
  have h0 : '0'.toNat = 48 := rfl
  have h9 : '9'.toNat = 57 := rfl
  rw [h0, h9] at h
  obtain ⟨h1, h2⟩ := h
  have hc := char_eq_of_toNat c c.toNat rfl
  generalize c.toNat = n at h1 h2 hc
  subst hc
  interval_cases n <;> simp

theorem digitChar_isDigit : ∀ d, d < 10 → isDigit (Nat.digitChar d) = true := by decide

theorem digitChar_value : ∀ d, d < 10 → (Nat.digitChar d).toNat - 48 = d := by decide

theorem digitChar_pos : ∀ d, d < 10 → d ≠ 0 →
    ('1' ≤ Nat.digitChar d ∧ Nat.digitChar d ≤ '9') := by decide

theorem digitChar_isHex : ∀ d, d < 16 → isHex (Nat.digitChar d) = true := by decide

theorem digitChar_hexVal : ∀ d, d < 16 → hexVal (Nat.digitChar d) = d := by decide

theorem decimalValue_snoc (l : List Char) (c : Char) :
    decimalValue (l ++ [c]) = decimalValue l * 10 + (c.toNat - 48) := by
  simp [decimalValue, Nat.ofDigits_cons]
  ring

/-- What `Nat.toDigitsCore` writes in base 10 with enough fuel: a non-empty
list of digits of value `n`, which is `0` alone for zero and starts with a
digit from `1` to `9` otherwise. -/
theorem toDigitsCore_spec (fuel n : Nat) (ds : List Char) (h : n < fuel) :
    ∃ l, Nat.toDigitsCore 10 fuel n ds = l ++ ds ∧ l.all isDigit = true ∧
      decimalValue l = n ∧ (n = 0 → l = ['0']) ∧
      (n ≠ 0 → ∃ c cs, l = c :: cs ∧ '1' ≤ c ∧ c ≤ '9') := by
  induction fuel generalizing n ds with
  | zero => omega
  | succ fuel ih =>
    unfold Nat.toDigitsCore
    have hlt : n % 10 < 10 := Nat.mod_lt _ (by decide)
    by_cases h0 : n / 10 = 0
    · simp only [h0, if_true]
      have hn : n < 10 := by omega
      have hmod : n % 10 = n := Nat.mod_eq_of_lt hn
      refine ⟨[Nat.digitChar (n % 10)], rfl, ?_, ?_, ?_, ?_⟩
      · simp [digitChar_isDigit _ hlt]
      · have := digitChar_value _ hlt
        rw [hmod] at this
        simp [decimalValue, this, hmod]
      · intro hz
        subst hz
        rfl
      · intro hz
        rw [hmod]
        exact ⟨_, [], rfl, digitChar_pos n hn hz⟩
    · simp only [h0, if_false]
      have hn' : n / 10 < fuel := by omega
      obtain ⟨l, hl, hall, hval, _, hpos⟩ := ih (n / 10) (Nat.digitChar (n % 10) :: ds) hn'
      refine ⟨l ++ [Nat.digitChar (n % 10)], ?_, ?_, ?_, ?_, ?_⟩
      · rw [hl]; simp
      · simp [hall, digitChar_isDigit _ hlt]
      · rw [decimalValue_snoc, hval, digitChar_value _ hlt]
        omega
      · intro hz
        omega
      · intro _
        obtain ⟨c, cs, hc, h1, h9⟩ := hpos h0
        exact ⟨c, cs ++ [Nat.digitChar (n % 10)], by rw [hc]; rfl, h1, h9⟩

theorem toString_nat_spec (n : Nat) :
    (toString n).data.all isDigit = true ∧ decimalValue (toString n).data = n ∧
      (n = 0 → (toString n).data = ['0']) ∧
      (n ≠ 0 → ∃ c cs, (toString n).data = c :: cs ∧ '1' ≤ c ∧ c ≤ '9') := by
  have hd : (toString n).data = Nat.toDigitsCore 10 (n + 1) n [] := rfl
  obtain ⟨l, hl, h1, h2, h3, h4⟩ := toDigitsCore_spec (n + 1) n [] (Nat.lt_succ_self n)
  rw [List.append_nil] at hl
  rw [hd, hl]
  exact ⟨h1, h2, h3, h4⟩

theorem parseInt64_digits (lit : String) (hall : lit.data.all isDigit = true)
    (hne : lit.data ≠ []) (hr : decimalValue lit.data < 2 ^ 63) :
    parseInt64 lit = some (decimalValue lit.data : Int) := by
  unfold parseInt64
  cases hd : lit.data with
  | nil => exact absurd hd hne
  | cons c cs =>
    rw [hd] at hall hr
    have hc : isDigit c = true := by
      simp only [List.all_cons, Bool.and_eq_true] at hall
      exact hall.1
    have hm : c ≠ '-' := by
      intro h
      subst h
      exact absurd hc (by decide)
    have hp : c ≠ '+' := by
      intro h
      subst h
      exact absurd hc (by decide)
    have hne1 : (some c == some '-') = false := by simp [hm]
    have hne2 : (some c == some '+') = false := by simp [hp]
    simp only [List.head?_cons, hne1, hne2, or_self, Bool.false_eq_true, if_false,
      foldl_digits_value, hall, List.cons_ne_nil, false_or, not_true_eq_false]
    have := (int64_range_pos (decimalValue (c :: cs))).2 hr
    simp only [this, and_self, if_true]

theorem parseInt64_neg_digits (lit : String) (l : List Char) (hd : lit.data = '-' :: l)
    (hall : l.all isDigit = true) (hne : l ≠ []) (hr : decimalValue l ≤ 2 ^ 63) :
    parseInt64 lit = some (-(decimalValue l : Int)) := by
  unfold parseInt64
  simp only [hd, List.head?_cons, beq_self_eq_true, true_or, if_true, List.tail_cons,
    foldl_digits_value, hall, hne, false_or, not_true_eq_false, if_false]
  have := (int64_range_neg (decimalValue l)).2 hr
  simp only [this, and_self, if_true]

theorem toString_int_data (c : Int) :
    (0 ≤ c ∧ (toString c).data = (toString c.toNat).data) ∨
      (c < 0 ∧ (toString c).data = '-' :: (toString c.natAbs).data) := by
  cases c with
  | ofNat n => exact Or.inl ⟨Int.ofNat_nonneg n, rfl⟩
  | negSucc m => exact Or.inr ⟨Int.negSucc_lt_zero m, rfl⟩

theorem parseInt64_toString (c : Int) (h1 : -(2 : Int) ^ 63 ≤ c) (h2 : c < (2 : Int) ^ 63) :
    parseInt64 (toString c) = some c := by
  rcases toString_int_data c with ⟨h0, hd⟩ | ⟨h0, hd⟩
  · obtain ⟨hall, hval, hz, hpos⟩ := toString_nat_spec c.toNat
    have hne : (toString c).data ≠ [] := by
      rw [hd]
      by_cases hc : c.toNat = 0
      · rw [hz hc]; simp
      · obtain ⟨x, xs, hx, _⟩ := hpos hc
        rw [hx]; simp
    have hr : decimalValue (toString c).data < 2 ^ 63 := by
      rw [hd, hval]
      norm_num at h2 ⊢
      omega
    rw [parseInt64_digits (toString c) (by rw [hd]; exact hall) hne hr, hd, hval]
    congr 1
    omega
  · obtain ⟨hall, hval, hz, hpos⟩ := toString_nat_spec c.natAbs
    have hne : (toString c.natAbs).data ≠ [] := by
      have hc : c.natAbs ≠ 0 := by omega
      obtain ⟨x, xs, hx, _⟩ := hpos hc
      rw [hx]; simp
    have hr : decimalValue (toString c.natAbs).data ≤ 2 ^ 63 := by
      rw [hval]
      norm_num at h1 ⊢
      omega
    rw [parseInt64_neg_digits (toString c) _ hd hall hne hr, hval]
    congr 1
    omega

theorem scan_append (s : Scanner) (a b : List Char) :
    scan s (a ++ b) = (scan s a).bind (fun s1 => scan s1 b) := by
  induction a generalizing s with
  | nil => rfl
  | cons c a ih =>
    simp only [List.cons_append, scan]
    cases step s c with
    | none => rfl
    | some s1 => exact ih s1

theorem scan_append_of_eq (s s1 : Scanner) (a b : List Char) (h : scan s a = some s1) :
    scan s (a ++ b) = scan s1 b := by
  rw [scan_append, h]
  rfl

theorem scan_state1_digits (l lit : List Char) (stack : List Frame) (r : Option JValue)
    (hall : l.all isDigit = true) :
    scan { step := Step.state1 lit, parseState := stack, result := r } l =
      some { step := Step.state1 (l.reverse ++ lit), parseState := stack, result := r } := by
  induction l generalizing lit with
  | nil => rfl
  | cons c cs ih =>
    simp only [List.all_cons, Bool.and_eq_true] at hall
    have hstep : step { step := Step.state1 lit, parseState := stack, result := r } c =
        some { step := Step.state1 (c :: lit), parseState := stack, result := r } := by
      simp [step, hall.1]
    simp only [scan, hstep, ih (c :: lit) hall.2]
    simp

theorem stateBeginValue_digit (c : Char) (stack : List Frame) (r : Option JValue)
    (h1 : '1' ≤ c) (h9 : c ≤ '9') :
    stateBeginValue { step := Step.beginValue, parseState := stack, result := r } c =
      some { step := Step.state1 [c], parseState := stack, result := r } := by
  have hd : isDigit c = true := by
    simp only [isDigit, Bool.and_eq_true, decide_eq_true_eq]
    exact ⟨Char.le_trans (by decide) h1, h9⟩
  rcases isDigit_cases c hd with h | h | h | h | h | h | h | h | h | h <;> subst h
  · exact absurd h1 (by decide)
  all_goals rfl

theorem step_neg_digit (c : Char) (lit : List Char) (stack : List Frame) (r : Option JValue)
    (h1 : '1' ≤ c) (h9 : c ≤ '9') :
    step { step := Step.neg lit, parseState := stack, result := r } c =
      some { step := Step.state1 (c :: lit), parseState := stack, result := r } := by
  have hd : isDigit c = true := by
    simp only [isDigit, Bool.and_eq_true, decide_eq_true_eq]
    exact ⟨Char.le_trans (by decide) h1, h9⟩
  rcases isDigit_cases c hd with h | h | h | h | h | h | h | h | h | h <;> subst h
  · exact absurd h1 (by decide)
  all_goals rfl

/-- The scanner on the digits of a natural number: from a state that expects
the first digit of a number, with `lit` already read, it reaches `state0` or
`state1` with the digits read. -/
theorem scan_nat_digits (n : Nat) (stack : List Frame) (r : Option JValue) :
    ∃ st, (st = Step.state0 ((toString n).data.reverse) ∨
          st = Step.state1 ((toString n).data.reverse)) ∧
      scan { step := Step.beginValue, parseState := stack, result := r } (toString n).data =
        some { step := st, parseState := stack, result := r } := by
  obtain ⟨hall, _, hz, hpos⟩ := toString_nat_spec n
  by_cases hn : n = 0
  · rw [hz hn]
    exact ⟨_, Or.inl rfl, rfl⟩
  · obtain ⟨c, cs, hc, h1, h9⟩ := hpos hn
    rw [hc] at hall ⊢
    simp only [List.all_cons, Bool.and_eq_true] at hall
    refine ⟨_, Or.inr rfl, ?_⟩
    have hstep : step { step := Step.beginValue, parseState := stack, result := r } c =
        some { step := Step.state1 [c], parseState := stack, result := r } :=
      stateBeginValue_digit c stack r h1 h9
    simp only [scan, hstep, scan_state1_digits cs [c] stack r hall.2]
    simp

theorem scan_neg_digits (n : Nat) (stack : List Frame) (r : Option JValue) :
    ∃ st, (st = Step.state0 (('-' :: (toString n).data).reverse) ∨
          st = Step.state1 (('-' :: (toString n).data).reverse)) ∧
      scan { step := Step.beginValue, parseState := stack, result := r }
          ('-' :: (toString n).data) =
        some { step := st, parseState := stack, result := r } := by
  obtain ⟨hall, _, hz, hpos⟩ := toString_nat_spec n
  have hminus : step { step := Step.beginValue, parseState := stack, result := r } '-' =
      some { step := Step.neg ['-'], parseState := stack, result := r } := rfl
  by_cases hn : n = 0
  · rw [hz hn]
    exact ⟨_, Or.inl rfl, rfl⟩
  · obtain ⟨c, cs, hc, h1, h9⟩ := hpos hn
    rw [hc] at hall ⊢
    simp only [List.all_cons, Bool.and_eq_true] at hall
    refine ⟨_, Or.inr rfl, ?_⟩
    simp only [scan, hminus, step_neg_digit c ['-'] stack r h1 h9,
      scan_state1_digits cs [c, '-'] stack r hall.2]
    simp

/-- The scanner on the decimal text of an integer that is the value of a
member of an object, up to the comma that ends it. -/
theorem scan_number (c : Int) (k : String) (done : List (String × JValue))
    (stack : List Frame) (r : Option JValue) (rest : List Char) :
    scan { step := Step.beginValue,
           parseState := Frame.objectValue done (some k) :: stack, result := r }
        ((toString c).data ++ ',' :: rest) =
      scan { step := Step.beginString,
             parseState := Frame.objectKey ((k, JValue.number (toString c)) :: done) none :: stack,
             result := r } rest := by
  have hlit : ∃ st, (st = Step.state0 ((toString c).data.reverse) ∨
        st = Step.state1 ((toString c).data.reverse)) ∧
      scan { step := Step.beginValue,
             parseState := Frame.objectValue done (some k) :: stack, result := r }
          (toString c).data =
        some { step := st, parseState := Frame.objectValue done (some k) :: stack,
               result := r } := by
    rcases toString_int_data c with ⟨_, hd⟩ | ⟨_, hd⟩
    · rw [hd]
      exact scan_nat_digits c.toNat _ r
    · rw [hd]
      exact scan_neg_digits c.natAbs _ r
  obtain ⟨st, hst, hscan⟩ := hlit
  rw [scan_append_of_eq _ _ _ _ hscan]
  have hmk : String.mk (toString c).data.reverse.reverse = toString c := by
    rw [List.reverse_reverse]
  rcases hst with h | h <;> subst h <;>
    simp [scan, step, state0, endNumber, deliver, stateEndValue, isDigit, isSpace, hmk]

theorem escapeChar_control (c : Char) (h1 : c ≠ '"') (h2 : c ≠ '\\') (h3 : c.toNat < 0x20) :
    escapeChar c =
      ['\\', 'u', '0', '0', Nat.digitChar (c.toNat / 16), Nat.digitChar (c.toNat % 16)] := by
  simp [escapeChar, h1, h2, h3]

theorem escapeChar_plain (c : Char) (h1 : c ≠ '"') (h2 : c ≠ '\\') (h3 : ¬ c.toNat < 0x20) :
    escapeChar c = [c] := by
  simp [escapeChar, h1, h2, h3]

theorem step_inStringEscU (c : Char) (raw : List Char) (seen : Nat) (stack : List Frame)
    (r : Option JValue) (h : isHex c = true) :
    step { step := Step.inStringEscU raw seen, parseState := stack, result := r } c =
      if seen < 3 then
        some { step := Step.inStringEscU (c :: raw) (seen + 1), parseState := stack, result := r }
      else some { step := Step.inString (c :: raw), parseState := stack, result := r } := by
  simp only [step, h, if_true]

theorem scan_escapeChar (c : Char) (raw : List Char) (stack : List Frame)
    (r : Option JValue) :
    scan { step := Step.inString raw, parseState := stack, result := r } (escapeChar c) =
      some { step := Step.inString ((escapeChar c).reverse ++ raw), parseState := stack,
             result := r } := by
  by_cases h1 : c = '"'
  · subst h1; rfl
  · by_cases h2 : c = '\\'
    · subst h2; rfl
    · by_cases h3 : c.toNat < 0x20
      · rw [escapeChar_control c h1 h2 h3]
        have hx := digitChar_isHex (c.toNat / 16) (by omega)
        have hy := digitChar_isHex (c.toNat % 16) (by omega)
        have h0 : isHex '0' = true := by decide
        have hb : step (Scanner.mk (Step.inString raw) stack r) '\\' =
            some (Scanner.mk (Step.inStringEsc ('\\' :: raw)) stack r) := rfl
        have hu : step (Scanner.mk (Step.inStringEsc ('\\' :: raw)) stack r) 'u' =
            some (Scanner.mk (Step.inStringEscU ('u' :: '\\' :: raw) 0) stack r) := rfl
        simp [scan, hb, hu, step_inStringEscU _ _ _ _ _ h0, step_inStringEscU _ _ _ _ _ hx,
          step_inStringEscU _ _ _ _ _ hy]
      · rw [escapeChar_plain c h1 h2 h3]
        simp [scan, step, h1, h2, h3]

theorem scan_escapeChars (cs raw : List Char) (stack : List Frame) (r : Option JValue) :
    scan { step := Step.inString raw, parseState := stack, result := r } (escapeChars cs) =
      some { step := Step.inString ((escapeChars cs).reverse ++ raw), parseState := stack,
             result := r } := by
  induction cs generalizing raw with
  | nil => rfl
  | cons c cs ih =>
    rw [escapeChars, scan_append_of_eq _ _ _ _ (scan_escapeChar c raw stack r), ih]
    simp

theorem foldl_unquoteStep_escapeChar (c : Char) (out : List Char) :
    (escapeChar c).foldl unquoteStep (out, UnquoteMode.plain) = (c :: out, UnquoteMode.plain) := by
  by_cases h1 : c = '"'
  · subst h1; rfl
  · by_cases h2 : c = '\\'
    · subst h2; rfl
    · by_cases h3 : c.toNat < 0x20
      · rw [escapeChar_control c h1 h2 h3]
        have hx := digitChar_hexVal (c.toNat / 16) (by omega)
        have hy := digitChar_hexVal (c.toNat % 16) (by omega)
        have h0 : hexVal '0' = 0 := rfl
        have hval : hex4 '0' '0' (Nat.digitChar (c.toNat / 16)) (Nat.digitChar (c.toNat % 16)) =
            c.toNat := by
          simp only [hex4, hx, hy, h0]
          omega
        have hs : isSurrogate c.toNat = false := by
          simp only [isSurrogate, Bool.and_eq_false_imp, decide_eq_true_eq, decide_eq_false_iff_not]
          omega
        simp [unquoteStep, getu4, emitU4, hval, hs]
      · rw [escapeChar_plain c h1 h2 h3]
        simp [unquoteStep, h2]

theorem foldl_unquoteStep_escapeChars (cs out : List Char) :
    (escapeChars cs).foldl unquoteStep (out, UnquoteMode.plain) =
      (cs.reverse ++ out, UnquoteMode.plain) := by
  induction cs generalizing out with
  | nil => rfl
  | cons c cs ih =>
    rw [escapeChars, List.foldl_append, foldl_unquoteStep_escapeChar, ih]
    simp

/-- Reading back an escaped string gives the string. -/
theorem unquote_escapeChars (s : String) : unquote (escapeChars s.data) = s := by
  unfold unquote
  rw [foldl_unquoteStep_escapeChars]
  simp

/-- The scanner on a string literal that is the value of a member of an
object. -/
theorem scan_writeString (s k : String) (done : List (String × JValue))
    (stack : List Frame) (r : Option JValue) (rest : List Char) :
    scan { step := Step.beginValue,
           parseState := Frame.objectValue done (some k) :: stack, result := r }
        (writeString s ++ rest) =
      scan { step := Step.endValue,
             parseState := Frame.objectValue ((k, JValue.string s) :: done) none :: stack,
             result := r } rest := by
  have hopen : step (Scanner.mk Step.beginValue (Frame.objectValue done (some k) :: stack) r)
      '"' = some (Scanner.mk (Step.inString []) (Frame.objectValue done (some k) :: stack) r) :=
    rfl
  have hclose : step (Scanner.mk (Step.inString ((escapeChars s.data).reverse ++ []))
      (Frame.objectValue done (some k) :: stack) r) '"' =
      some (Scanner.mk Step.endValue
        (Frame.objectValue ((k, JValue.string s) :: done) none :: stack) r) := by
    simp [step, deliver, unquote_escapeChars]
  unfold writeString
  rw [List.cons_append, scan, hopen]
  simp only []
  rw [List.append_assoc, scan_append_of_eq _ _ _ _ (scan_escapeChars s.data [] _ r)]
  rw [List.singleton_append, scan, hclose]

theorem findField_id : findField JSONModel.fields "id" = some "ID" := by rfl
theorem findField_object : findField JSONModel.fields "object" = some "Object" := by rfl
theorem findField_created : findField JSONModel.fields "created" = some "Created" := by rfl
theorem findField_owned_by : findField JSONModel.fields "owned_by" = some "OwnedBy" := by rfl
theorem findField_data : findField modelsDataFields "data" = some "Data" := by rfl

theorem decodeModelMember_id (st : JSONModel × Option JsonError) (s : String) :
    decodeModelMember st ("id", JValue.string s) = ({ st.1 with ID := s }, st.2) := by
  simp [decodeModelMember, findField_id, decodeString]

theorem decodeModelMember_object (st : JSONModel × Option JsonError) (s : String) :
    decodeModelMember st ("object", JValue.string s) = ({ st.1 with Object := s }, st.2) := by
  simp [decodeModelMember, findField_object, decodeString]

theorem decodeModelMember_owned_by (st : JSONModel × Option JsonError) (s : String) :
    decodeModelMember st ("owned_by", JValue.string s) = ({ st.1 with OwnedBy := s }, st.2) := by
  simp [decodeModelMember, findField_owned_by, decodeString]

theorem decodeModelMember_created (st : JSONModel × Option JsonError) (lit : String) (n : Int)
    (h : parseInt64 lit = some n) :
    decodeModelMember st ("created", JValue.number lit) = ({ st.1 with Created := n }, st.2) := by
  simp [decodeModelMember, findField_created, decodeInt64, h]

/-- The stack of the scanner inside the array of the member `data`. -/
theorem scan_writeModel (m : JSONModel) (first : Bool) (elems : List JValue)
    (r : Option JValue) (rest : List Char) :
    scan (Scanner.mk (if first then Step.beginValueOrEmpty else Step.beginValue)
        [Frame.arrayValue elems, Frame.objectValue [] (some "data")] r)
        (writeModel m ++ rest) =
      scan (Scanner.mk Step.endValue
        [Frame.arrayValue (modelObject m :: elems), Frame.objectValue [] (some "data")] r)
        rest := by
  have hid : scan (Scanner.mk (if first then Step.beginValueOrEmpty else Step.beginValue)
      [Frame.arrayValue elems, Frame.objectValue [] (some "data")] r) "\x7b\"id\":".data =
      some (Scanner.mk Step.beginValue [Frame.objectValue [] (some "id"),
        Frame.arrayValue elems, Frame.objectValue [] (some "data")] r) := by
    cases first <;> rfl
  have hobject : ∀ done : List (String × JValue),
      scan (Scanner.mk Step.endValue [Frame.objectValue done none,
        Frame.arrayValue elems, Frame.objectValue [] (some "data")] r) ",\"object\":".data =
      some (Scanner.mk Step.beginValue [Frame.objectValue done (some "object"),
        Frame.arrayValue elems, Frame.objectValue [] (some "data")] r) := fun _ => rfl
  have hcreated : ∀ done : List (String × JValue),
      scan (Scanner.mk Step.endValue [Frame.objectValue done none,
        Frame.arrayValue elems, Frame.objectValue [] (some "data")] r) ",\"created\":".data =
      some (Scanner.mk Step.beginValue [Frame.objectValue done (some "created"),
        Frame.arrayValue elems, Frame.objectValue [] (some "data")] r) := fun _ => rfl
  have howned : ∀ done : List (String × JValue),
      scan (Scanner.mk Step.beginString [Frame.objectKey done none,
        Frame.arrayValue elems, Frame.objectValue [] (some "data")] r) "\"owned_by\":".data =
      some (Scanner.mk Step.beginValue [Frame.objectValue done (some "owned_by"),
        Frame.arrayValue elems, Frame.objectValue [] (some "data")] r) := fun _ => rfl
  have hclose : ∀ done : List (String × JValue),
      scan (Scanner.mk Step.endValue [Frame.objectValue done none,
        Frame.arrayValue elems, Frame.objectValue [] (some "data")] r) ('}' :: rest) =
      scan (Scanner.mk Step.endValue [Frame.arrayValue (JValue.object done.reverse :: elems),
        Frame.objectValue [] (some "data")] r) rest := fun _ => rfl
  have hsplit : ",\"owned_by\":".data = ',' :: "\"owned_by\":".data := rfl
  unfold writeModel
  repeat rw [List.append_assoc]
  rw [scan_append_of_eq _ _ _ _ hid, scan_writeString,
    scan_append_of_eq _ _ _ _ (hobject _), scan_writeString,
    scan_append_of_eq _ _ _ _ (hcreated _), hsplit, List.cons_append, scan_number,
    scan_append_of_eq _ _ _ _ (howned _), scan_writeString, List.singleton_append, hclose]
  rfl

theorem scan_writeMore (ms : List JSONModel) (elems : List JValue) (r : Option JValue)
    (rest : List Char) :
    scan (Scanner.mk Step.endValue
        [Frame.arrayValue elems, Frame.objectValue [] (some "data")] r)
        (writeMore ms ++ rest) =
      scan (Scanner.mk Step.endValue
        [Frame.arrayValue ((ms.map modelObject).reverse ++ elems),
         Frame.objectValue [] (some "data")] r) rest := by
  induction ms generalizing elems with
  | nil => rfl
  | cons m ms ih =>
    have hcomma : step (Scanner.mk Step.endValue
        [Frame.arrayValue elems, Frame.objectValue [] (some "data")] r) ',' =
        some (Scanner.mk Step.beginValue
          [Frame.arrayValue elems, Frame.objectValue [] (some "data")] r) := rfl
    rw [writeMore, List.cons_append, scan, hcomma]
    simp only []
    rw [List.append_assoc]
    have := scan_writeModel m false elems r (writeMore ms ++ rest)
    simp only [Bool.false_eq_true, if_false] at this
    rw [this, ih]
    simp

/-- The scanner reads the text of `modelsBody ms` as the object whose member
`data` is the array of the model objects. -/
theorem parseJSON_modelsBody (ms : List JSONModel) :
    parseJSON (modelsBody ms) =
      some (JValue.object [("data", JValue.array (ms.map modelObject))]) := by
  have hopen : scan Scanner.init "\x7b\"data\":[".data =
      some (Scanner.mk Step.beginValueOrEmpty
        [Frame.arrayValue [], Frame.objectValue [] (some "data")] none) := rfl
  have hclose : ∀ elems : List JValue,
      scan (Scanner.mk Step.endValue
        [Frame.arrayValue elems, Frame.objectValue [] (some "data")] none) "]\x7d".data =
      some (Scanner.mk Step.endValue []
        (some (JValue.object [("data", JValue.array elems.reverse)]))) := fun _ => rfl
  unfold parseJSON modelsBody
  simp only []
  rw [scan_append_of_eq _ _ _ _ hopen]
  cases ms with
  | nil => rfl
  | cons m ms =>
    rw [writeModels, List.append_assoc]
    have := scan_writeModel m true [] none (writeMore ms ++ "]\x7d".data)
    simp only [if_true] at this
    rw [this, scan_writeMore, hclose]
    simp [eof, step, stateEndValue, isSpace]

theorem decodeModel_modelObject (m : JSONModel) (saved : Option JsonError)
    (h1 : -(2 : Int) ^ 63 ≤ m.Created) (h2 : m.Created < (2 : Int) ^ 63) :
    decodeModel JSONModel.zero saved (modelObject m) = (m, saved) := by
  have hlit := parseInt64_toString m.Created h1 h2
  simp only [decodeModel, modelObject, List.foldl, decodeModelMember_id,
    decodeModelMember_object, decodeModelMember_owned_by,
    decodeModelMember_created _ _ _ hlit]

theorem decodeElems_modelObjects (ms : List JSONModel) (saved : Option JsonError)
    (hrange : ∀ m ∈ ms, -(2 : Int) ^ 63 ≤ m.Created ∧ m.Created < (2 : Int) ^ 63) :
    decodeElems saved [] (ms.map modelObject) = (ms, saved) := by
  induction ms with
  | nil => rfl
  | cons m ms ih =>
    have hm := hrange m (List.mem_cons_self m ms)
    have hms := ih (fun x hx => hrange x (List.mem_cons_of_mem m hx))
    simp only [List.map_cons, decodeElems, List.headD_nil, List.tail_nil,
      decodeModel_modelObject m saved hm.1 hm.2, hms]

/-- The body `modelsBody ms` decodes to the models `ms`, without error. -/
theorem jsonUnmarshal_modelsBody (ms : List JSONModel)
    (hrange : ∀ m ∈ ms, -(2 : Int) ^ 63 ≤ m.Created ∧ m.Created < (2 : Int) ^ 63) :
    jsonUnmarshal (modelsBody ms) = (some ms, none) := by
  unfold jsonUnmarshal
  rw [parseJSON_modelsBody]
  cases ms with
  | nil => rfl
  | cons m ms =>
    have h := decodeElems_modelObjects (m :: ms) none hrange
    rw [List.map_cons] at h
    simp [decodeTop, decodeTopMember, findField_data, decodeData, h]

theorem transportSend_wire (w : World) (req : Request) :
    (transportSend w req).2 = [] ∨ (transportSend w req).2 = [req] := by
  unfold transportSend
  cases req.Header.find? (fun h => !validHeaderFieldValue h.2) with
  | none => exact Or.inr rfl
  | some h => exact Or.inl rfl

theorem transportSend_models_invalid (w : World) (key : String)
    (h : validHeaderFieldValue ("Bearer " ++ key) = false) :
    transportSend w (modelsRequest key) =
      (Except.error "net/http: invalid header field value for \"Authorization\"", []) := by
  simp [transportSend, modelsRequest, List.find?, h]

theorem transportSend_models_valid (w : World) (key : String)
    (h : validHeaderFieldValue ("Bearer " ++ key) = true) :
    transportSend w (modelsRequest key) =
      (w.roundTrip (modelsRequest key), [modelsRequest key]) := by
  simp [transportSend, modelsRequest, List.find?, h]

theorem redirectBehavior_get (resp : Response) (method : String) (includeBody : Bool)
    (h : redirectBehavior "GET" resp = some (method, includeBody)) : method = "GET" := by
  unfold redirectBehavior at h
  split_ifs at h <;> simp at h <;> exact h.1.symm

theorem doLoop_wire_length (w : World) (ireq : Request) (fuel : Nat) (req : Request)
    (loc : String) : (doLoop w ireq fuel req loc).2.length ≤ fuel := by
  induction fuel generalizing req loc with
  | zero => simp [doLoop]
  | succ fuel ih =>
    have hw : (transportSend w req).2.length ≤ 1 := by
      rcases transportSend_wire w req with h | h <;> simp [h]
    unfold doLoop
    rcases hts : transportSend w req with ⟨_ | resp, wire⟩
    · rw [hts] at hw
      simp only [] at hw ⊢
      omega
    · rw [hts] at hw
      simp only [] at hw ⊢
      cases redirectBehavior req.Method resp with
      | none => simp only []; omega
      | some mb =>
        rcases mb with ⟨method, includeBody⟩
        simp only []
        cases resp.Location with
        | none => simp only []; omega
        | some loc1 =>
          simp only []
          by_cases hl : loc1 = ""
          · simp only [hl, if_true]; omega
          · simp only [hl, if_false]
            cases w.resolveLocation req.URL loc1 with
            | error e => simp only []; omega
            | ok url =>
              simp only [List.length_append]
              have := ih { Method := method, URL := url, Header := w.redirectHeader ireq url,
                           Body := if includeBody = true then ireq.Body else none } loc1
              omega

theorem doLoop_wire_get (w : World) (ireq : Request) (fuel : Nat) (req : Request)
    (loc : String) (hget : req.Method = "GET") :
    ∀ r ∈ (doLoop w ireq fuel req loc).2, r.Method = "GET" := by
  induction fuel generalizing req loc with
  | zero => simp [doLoop]
  | succ fuel ih =>
    have hw : ∀ r ∈ (transportSend w req).2, r.Method = "GET" := by
      rcases transportSend_wire w req with h | h <;> simp [h, hget]
    unfold doLoop
    rcases hts : transportSend w req with ⟨_ | resp, wire⟩
    · rw [hts] at hw
      exact hw
    · rw [hts] at hw
      simp only [] at hw ⊢
      cases hb : redirectBehavior req.Method resp with
      | none => exact hw
      | some mb =>
        rcases mb with ⟨method, includeBody⟩
        rw [hget] at hb
        have hm := redirectBehavior_get resp method includeBody hb
        simp only []
        cases resp.Location with
        | none => exact hw
        | some loc1 =>
          simp only []
          by_cases hl : loc1 = ""
          · simp only [hl, if_true]; exact hw
          · simp only [hl, if_false]
            cases w.resolveLocation req.URL loc1 with
            | error e => exact hw
            | ok url =>
              intro r hr
              simp only [List.mem_append] at hr
              rcases hr with hr | hr
              · exact hw r hr
              · exact ih { Method := method, URL := url, Header := w.redirectHeader ireq url,
                           Body := if includeBody = true then ireq.Body else none } loc1 hm r hr

/-- The requests on the wire when the first request passes the transport's
check: the request itself, then at most `fuel` more. -/
theorem doLoop_wire_head (w : World) (ireq : Request) (fuel : Nat) (req : Request)
    (loc : String) (hsend : transportSend w req = (w.roundTrip req, [req])) :
    ∃ rest, (doLoop w ireq (fuel + 1) req loc).2 = req :: rest ∧ rest.length ≤ fuel ∧
      (req.Method = "GET" → ∀ r ∈ rest, r.Method = "GET") := by
  unfold doLoop
  rw [hsend]
  cases w.roundTrip req with
  | error e => exact ⟨[], rfl, Nat.zero_le _, fun _ r hr => by cases hr⟩
  | ok resp =>
    simp only []
    cases hb : redirectBehavior req.Method resp with
    | none => exact ⟨[], rfl, Nat.zero_le _, fun _ r hr => by cases hr⟩
    | some mb =>
      rcases mb with ⟨method, includeBody⟩
      simp only []
      cases resp.Location with
      | none => exact ⟨[], rfl, Nat.zero_le _, fun _ r hr => by cases hr⟩
      | some loc1 =>
        simp only []
        by_cases hl : loc1 = ""
        · simp only [hl, if_true]
          exact ⟨[], rfl, Nat.zero_le _, fun _ r hr => by cases hr⟩
        · simp only [hl, if_false]
          cases w.resolveLocation req.URL loc1 with
          | error e => exact ⟨[], rfl, Nat.zero_le _, fun _ r hr => by cases hr⟩
          | ok url =>
            refine ⟨_, rfl, doLoop_wire_length w ireq fuel _ loc1, fun hget => ?_⟩
            rw [hget] at hb
            exact doLoop_wire_get w ireq fuel _ loc1 (redirectBehavior_get resp method includeBody hb)

/-- The request alone is on the wire when the transport accepts it and the
answer is final: a transport error, a response that is no redirect, or a
redirect without `Location`. -/
theorem doLoop_wire_final (w : World) (ireq : Request) (fuel : Nat) (req : Request)
    (loc : String) (hsend : transportSend w req = (w.roundTrip req, [req]))
    (hfinal : ∀ resp, w.roundTrip req = Except.ok resp →
      redirectBehavior req.Method resp = none ∨ resp.Location = none) :
    (doLoop w ireq (fuel + 1) req loc).2 = [req] := by
  unfold doLoop
  rw [hsend]
  cases hr : w.roundTrip req with
  | error e => rfl
  | ok resp =>
    simp only []
    rcases hfinal resp hr with h | h
    · rw [h]
    · cases redirectBehavior req.Method resp with
      | none => rfl
      | some mb => simp only [h]

theorem clientRun_models_invalid (w : World) (key : String)
    (h : validHeaderFieldValue ("Bearer " ++ key) = false) :
    (clientRun w (modelsRequest key)).2 = [] := by
  unfold clientRun doLoop
  rw [transportSend_models_invalid w key h]

theorem foldl_printModel_wire (models : List JSONModel) (st : State) :
    (models.foldl printModel st).wire = st.wire := by
  induction models generalizing st with
  | nil => rfl
  | cons m rest ih => simp only [List.foldl_cons, ih, printModel]

/-- What `main` hands to the client and what the client puts on the wire are
what `getAvailableModels` does. -/
theorem main_requests (w : World) (st : State) (key : String)
    (henv : w.environ "OPENAI_API_KEY" = some key) (hkey : key ≠ "") :
    (main w st).sent = st.sent ++ [modelsRequest key] ∧
      (main w st).wire = st.wire ++ (clientRun w (modelsRequest key)).2 := by
  rw [main_of_key w st key henv hkey]
  have hstate := getAvailableModels_state w key st
  rcases hg : getAvailableModels w key st with ⟨⟨d, _ | e⟩, st1⟩
  · rw [hg] at hstate
    simp only [foldl_printModel_sent, foldl_printModel_wire]
    exact hstate
  · rw [hg] at hstate
    exact hstate

/-! ## The claims -/

/-- C1 (what the code does): for every text, the request `convertTextToSpeech`
hands to the client carries the JSON object with the keys `model`, `Input`,
`Voice` and `Speed`, in that order, with the values "tts-1", the text, "onyx"
and 1. Only the tag of `Model` is well formed, so the other three fields go
out under their Go names and not under `input`, `voice` and `speed`. -/
theorem convertTextToSpeech_request_body (w : World) (apiKey text filePath : String)
    (st : State) :
    (convertTextToSpeech w apiKey text filePath st).2.sent =
      st.sent ++ [{ Method := "POST", URL := "https://api.openai.com/v1/audio/speech",
                    Header := [("Authorization", "Bearer " ++ apiKey),
                               ("Content-Type", "application/json")],
                    Body := some [("model", FieldValue.string "tts-1"),
                                  ("Input", FieldValue.string text),
                                  ("Voice", FieldValue.string "onyx"),
                                  ("Speed", FieldValue.float32 1)] }] := by
  have h1 : ttsSpeed = 1 := by norm_num [ttsSpeed]
  rw [convertTextToSpeech_sent]
  unfold speechRequest
  rw [h1]
  rfl

/-- C2, counterexample: the speech endpoint answers 500, no file exists
before the call; the call returns the unexpected-status error and the
destination file does not exist afterwards. -/
theorem status_500_creates_no_file :
    (convertTextToSpeech (sampleWorld none 500 "") "key" "hello" "out.mp3" State.initial).1 =
        some "Unexpected Status Code: 500" ∧
      (convertTextToSpeech (sampleWorld none 500 "") "key" "hello" "out.mp3"
        State.initial).2.files "out.mp3" = none := by
  constructor <;> rfl

/-- C2, amended: when `client.Do` returns a response with a status other than
200, `convertTextToSpeech` returns the unexpected-status error and leaves the
files as they were: the destination file is not created. -/
theorem convertTextToSpeech_other_status_keeps_files (w : World)
    (apiKey text filePath : String) (st : State) (resp : Response)
    (hresp : (clientDo w (speechRequest apiKey text) st).1 = Except.ok resp)
    (hcode : resp.StatusCode ≠ 200) :
    (convertTextToSpeech w apiKey text filePath st).1 =
        some ("Unexpected Status Code: " ++ toString resp.StatusCode) ∧
      (convertTextToSpeech w apiKey text filePath st).2.files = st.files := by
  rw [convertTextToSpeech_eq, hresp]
  have hs : resp.StatusCode ≠ StatusOK := hcode
  simp only [hs, ne_eq, not_false_eq_true, if_true, clientDo_files, and_self]

/-- C2, witness: status 500 on the sample world. -/
theorem convertTextToSpeech_other_status_keeps_files_witness :
    (convertTextToSpeech (sampleWorld none 500 "") "key" "hello" "out.mp3" State.initial).1 =
        some ("Unexpected Status Code: " ++ toString (500 : Int)) ∧
      (convertTextToSpeech (sampleWorld none 500 "") "key" "hello" "out.mp3"
        State.initial).2.files = State.initial.files :=
  convertTextToSpeech_other_status_keeps_files (sampleWorld none 500 "") "key" "hello"
    "out.mp3" State.initial { StatusCode := 500, Location := none, Body := Except.ok "" }
    rfl (by decide)

/-- C3, counterexample: the body is the JSON object `{"data":[m1]}` whose one
model object has the members `id`, `object`, `created`, `owned_by`, with the
integer `created` = 9223372036854775808 = 2^63; `getAvailableModels` returns
the nil slice and the deserialization error. -/
theorem created_beyond_int64_is_an_error :
    modelsBody [{ ID := "m1", Object := "model", Created := 9223372036854775808,
                  OwnedBy := "openai" }] =
        "\x7b\"data\":[\x7b\"id\":\"m1\",\"object\":\"model\",\"created\":9223372036854775808,\"owned_by\":\"openai\"\x7d]\x7d" ∧
      (getAvailableModels (sampleWorld (some "key") 200
          (modelsBody [{ ID := "m1", Object := "model", Created := 9223372036854775808,
                         OwnedBy := "openai" }])) "key" State.initial).1 =
        (none, some "error unmarshaling JSON: invalid JSON") := by
  constructor <;> rfl

/-- C3, amended: for every API key and every list of models `m1 ... mn` whose
`created` lies in the range of `int64`, when `client.Do` returns a response
whose body is read and is the JSON text `{"data":[m1,...,mn]}` (written as in
the example of the interface: no white space, each model an object with the
members `id`, `object`, `created`, `owned_by` in that order, strings escaped,
`created` in decimal), `getAvailableModels` returns no error and exactly the
slice `m1 ... mn`, in the order of the text. -/
theorem getAvailableModels_returns_models (w : World) (key : String) (st : State)
    (resp : Response) (ms : List JSONModel)
    (hresp : (clientDo w (modelsRequest key) st).1 = Except.ok resp)
    (hread : resp.Body = Except.ok (modelsBody ms))
    (hrange : ∀ m ∈ ms, -(2 : Int) ^ 63 ≤ m.Created ∧ m.Created < (2 : Int) ^ 63) :
    (getAvailableModels w key st).1 = (some ms, none) := by
  rw [getAvailableModels_eq, hresp]
  simp only [hread, jsonUnmarshal_modelsBody ms hrange]

/-- C3, witness: the body of the interface's example is the text of the one
model `m1`, and gives that model. -/
theorem getAvailableModels_returns_models_witness :
    modelsBody [{ ID := "m1", Object := "model", Created := 1, OwnedBy := "openai" }] =
        "\x7b\"data\":[\x7b\"id\":\"m1\",\"object\":\"model\",\"created\":1,\"owned_by\":\"openai\"\x7d]\x7d" ∧
      (getAvailableModels (sampleWorld (some "key") 200 sampleBody) "key" State.initial).1 =
        (some [{ ID := "m1", Object := "model", Created := 1, OwnedBy := "openai" }], none) :=
  ⟨rfl,
   getAvailableModels_returns_models (sampleWorld (some "key") 200 sampleBody) "key"
    State.initial { StatusCode := 200, Location := none, Body := Except.ok sampleBody }
    [{ ID := "m1", Object := "model", Created := 1, OwnedBy := "openai" }]
    rfl rfl (by decide)⟩

/-- C4, counterexample: the body `{}` is valid JSON of another shape (an
object with no `data` member) and `getAvailableModels` returns the nil slice
and no error; the body `{"data":[{}]}`, whose element lacks every field, gives
one model and no error. -/
theorem other_shape_is_no_error :
    parseJSON "\x7b\x7d" = some (JValue.object []) ∧
      (getAvailableModels (sampleWorld (some "key") 200 "\x7b\x7d") "key" State.initial).1 =
        (none, none) ∧
      (getAvailableModels (sampleWorld (some "key") 200 "\x7b\"data\":[\x7b\x7d]\x7d") "key"
        State.initial).1 = (some [JSONModel.zero], none) := by
  refine ⟨rfl, rfl, rfl⟩

/-- C4, amended: when `client.Do` returns a response whose body is read,
`getAvailableModels` fails with the deserialization error ("error unmarshaling
JSON: ...") if the body is not valid JSON or its JSON value has a type
mismatch with `modelsData` (a value of the wrong JSON type under a key that
selects a field, see `typeMismatch`), and returns no error otherwise: missing
members and unknown members are no error. -/
theorem getAvailableModels_unmarshal_error_iff (w : World) (key : String) (st : State)
    (resp : Response) (body : String)
    (hresp : (clientDo w (modelsRequest key) st).1 = Except.ok resp)
    (hread : resp.Body = Except.ok body) :
    (undecodable body = true →
      ∃ e, (getAvailableModels w key st).1 =
        (none, some ("error unmarshaling JSON: " ++ w.jsonErrorText e))) ∧
    (undecodable body = false → (getAvailableModels w key st).1.2 = none) := by
  rw [getAvailableModels_eq, hresp]
  simp only [hread]
  have herr := jsonUnmarshal_error body
  rcases hu : jsonUnmarshal body with ⟨d, _ | e⟩
  · rw [hu] at herr
    simp only [Option.isSome_none] at herr
    simp [← herr]
  · rw [hu] at herr
    simp only [Option.isSome_some] at herr
    refine ⟨fun _ => ⟨e, rfl⟩, fun h => ?_⟩
    rw [← herr] at h
    exact absurd h (by decide)

/-- C4, witness: a body whose `data` is a string fails, a body `{}` does
not. -/
theorem getAvailableModels_unmarshal_error_iff_witness :
    (∃ e, (getAvailableModels (sampleWorld (some "key") 200 "\x7b\"data\":\"x\"\x7d") "key"
        State.initial).1 =
      (none, some ("error unmarshaling JSON: " ++
        (sampleWorld (some "key") 200 "\x7b\"data\":\"x\"\x7d").jsonErrorText e))) ∧
    (getAvailableModels (sampleWorld (some "key") 200 "\x7b\x7d") "key" State.initial).1.2 =
      none :=
  ⟨(getAvailableModels_unmarshal_error_iff (sampleWorld (some "key") 200 "\x7b\"data\":\"x\"\x7d")
      "key" State.initial
      { StatusCode := 200, Location := none, Body := Except.ok "\x7b\"data\":\"x\"\x7d" }
      "\x7b\"data\":\"x\"\x7d" rfl rfl).1 rfl,
   (getAvailableModels_unmarshal_error_iff (sampleWorld (some "key") 200 "\x7b\x7d")
      "key" State.initial { StatusCode := 200, Location := none, Body := Except.ok "\x7b\x7d" }
      "\x7b\x7d" rfl rfl).2 rfl⟩

/-- C5: for every response `client.Do` returns, whatever its status code,
whose body is not syntactically valid JSON, `getAvailableModels` returns the
nil slice and the deserialization error. -/
theorem getAvailableModels_malformed_body (w : World) (key : String) (st : State)
    (resp : Response) (body : String)
    (hresp : (clientDo w (modelsRequest key) st).1 = Except.ok resp)
    (hread : resp.Body = Except.ok body)
    (hbad : parseJSON body = none) :
    (getAvailableModels w key st).1.1 = none ∧
      (getAvailableModels w key st).1.2 =
        some ("error unmarshaling JSON: " ++ w.jsonErrorText JsonError.syntaxError) := by
  rw [getAvailableModels_eq, hresp]
  simp only [hread, jsonUnmarshal, hbad, and_self]

/-- C5, witness: the body `{"data":[` with status 401. -/
theorem getAvailableModels_malformed_body_witness :
    (getAvailableModels (sampleWorld (some "key") 401 "\x7b\"data\":[") "key"
        State.initial).1.1 = none ∧
      (getAvailableModels (sampleWorld (some "key") 401 "\x7b\"data\":[") "key"
        State.initial).1.2 = some "error unmarshaling JSON: invalid JSON" :=
  getAvailableModels_malformed_body (sampleWorld (some "key") 401 "\x7b\"data\":[") "key"
    State.initial { StatusCode := 401, Location := none, Body := Except.ok "\x7b\"data\":[" }
    "\x7b\"data\":[" rfl rfl rfl

/-- C6: the pair `getAvailableModels` returns does not depend on the status
code: two responses returned by `client.Do` with the same body (or the same
read error), whatever their status codes, give the same pair; and for a body
that was read the pair is what `json.Unmarshal` makes of the body, whatever
the status code. -/
theorem getAvailableModels_status_independent (w1 w2 : World) (key : String)
    (st1 st2 : State) (r1 r2 : Response)
    (h1 : (clientDo w1 (modelsRequest key) st1).1 = Except.ok r1)
    (h2 : (clientDo w2 (modelsRequest key) st2).1 = Except.ok r2)
    (hbody : r1.Body = r2.Body) (htext : w1.jsonErrorText = w2.jsonErrorText) :
    (getAvailableModels w1 key st1).1 = (getAvailableModels w2 key st2).1 ∧
    ∀ body, r1.Body = Except.ok body →
      (getAvailableModels w1 key st1).1 =
        match jsonUnmarshal body with
        | (_, some err) => (none, some ("error unmarshaling JSON: " ++ w1.jsonErrorText err))
        | (data, none) => (data, none) := by
  rw [getAvailableModels_eq, getAvailableModels_eq, h1, h2]
  simp only [← hbody, htext]
  cases r1.Body with
  | error e => exact ⟨rfl, fun body h => by cases h⟩
  | ok body0 =>
    refine ⟨?_, fun body h => ?_⟩
    · simp only []
      rcases jsonUnmarshal body0 with ⟨d, _ | e⟩ <;> rfl
    · cases h
      simp only []
      rcases jsonUnmarshal body0 with ⟨d, _ | e⟩ <;> rfl

/-- C6, witness: the sample body with status 401 and with status 200 gives
the same pair, the model of the body. -/
theorem getAvailableModels_status_independent_witness :
    (getAvailableModels (sampleWorld (some "key") 401 sampleBody) "key" State.initial).1 =
        (getAvailableModels (sampleWorld (some "key") 200 sampleBody) "key"
          State.initial).1 ∧
      (getAvailableModels (sampleWorld (some "key") 401 sampleBody) "key" State.initial).1 =
        (some [{ ID := "m1", Object := "model", Created := 1, OwnedBy := "openai" }], none) :=
  ⟨(getAvailableModels_status_independent (sampleWorld (some "key") 401 sampleBody)
      (sampleWorld (some "key") 200 sampleBody) "key" State.initial State.initial
      { StatusCode := 401, Location := none, Body := Except.ok sampleBody }
      { StatusCode := 200, Location := none, Body := Except.ok sampleBody }
      rfl rfl rfl rfl).1,
   ((getAvailableModels_status_independent (sampleWorld (some "key") 401 sampleBody)
      (sampleWorld (some "key") 200 sampleBody) "key" State.initial State.initial
      { StatusCode := 401, Location := none, Body := Except.ok sampleBody }
      { StatusCode := 200, Location := none, Body := Except.ok sampleBody }
      rfl rfl rfl rfl).2 sampleBody rfl).trans rfl⟩

/-- C7: when the request is sent and `client.Do` returns a response,
`convertTextToSpeech` fails with the unexpected-status error if and only if
the status code is not 200, and the error then carries the code received. -/
theorem convertTextToSpeech_unexpected_status_iff (w : World)
    (apiKey text filePath : String) (st : State) (resp : Response)
    (hresp : (clientDo w (speechRequest apiKey text) st).1 = Except.ok resp) :
    ((∃ code : String, (convertTextToSpeech w apiKey text filePath st).1 =
        some ("Unexpected Status Code: " ++ code)) ↔ resp.StatusCode ≠ 200) ∧
    (resp.StatusCode ≠ 200 →
      (convertTextToSpeech w apiKey text filePath st).1 =
        some ("Unexpected Status Code: " ++ toString resp.StatusCode)) := by
  rw [convertTextToSpeech_eq, hresp]
  simp only [StatusOK]
  by_cases hs : resp.StatusCode = 200
  · simp only [hs, ne_eq, not_true_eq_false, if_false]
    cases hc : w.createError filePath with
    | none => simp
    | some err => simp [createFile_ne_unexpectedStatus]
  · simp only [hs, ne_eq, not_false_eq_true, if_true, forall_const, and_true, iff_true]
    exact ⟨_, rfl⟩

/-- C7, witness: status 404 gives the error with the code 404. -/
theorem convertTextToSpeech_unexpected_status_iff_witness :
    (convertTextToSpeech (sampleWorld none 404 "") "key" "hello" "out.mp3" State.initial).1 =
      some "Unexpected Status Code: 404" :=
  ((convertTextToSpeech_unexpected_status_iff (sampleWorld none 404 "") "key" "hello"
    "out.mp3" State.initial { StatusCode := 404, Location := none, Body := Except.ok "" }
    rfl).2 (by decide)).trans rfl

/-- C8: when `client.Do` returns a response with status 200 and the
destination path can be created, `convertTextToSpeech` returns no error and
afterwards the destination file exists and is empty, whatever the response
body and whatever the file held before; the other files are untouched. -/
theorem convertTextToSpeech_ok_leaves_empty_file (w : World)
    (apiKey text filePath : String) (st : State) (resp : Response)
    (hresp : (clientDo w (speechRequest apiKey text) st).1 = Except.ok resp)
    (hcode : resp.StatusCode = 200)
    (hfile : w.createError filePath = none) :
    (convertTextToSpeech w apiKey text filePath st).1 = none ∧
      (convertTextToSpeech w apiKey text filePath st).2.files filePath = some [] ∧
      ∀ p, p ≠ filePath →
        (convertTextToSpeech w apiKey text filePath st).2.files p = st.files p := by
  rw [convertTextToSpeech_eq, hresp]
  simp only [StatusOK, hcode, ne_eq, not_true_eq_false, if_false, hfile, if_true, true_and]
  intro p hp
  simp [hp]

/-- C8, witness: the endpoint answers 200 with three bytes of audio and the
destination file held two bytes; afterwards it is empty. -/
theorem convertTextToSpeech_ok_leaves_empty_file_witness :
    (convertTextToSpeech (sampleWorld none 200 "mp3") "key" "hello" "out.mp3"
        { State.initial with files := fun p => if p = "out.mp3" then some [1, 2] else none }).1 =
        none ∧
      (convertTextToSpeech (sampleWorld none 200 "mp3") "key" "hello" "out.mp3"
        { State.initial with files := fun p => if p = "out.mp3" then some [1, 2] else none }
        ).2.files "out.mp3" = some [] :=
  ⟨(convertTextToSpeech_ok_leaves_empty_file (sampleWorld none 200 "mp3") "key" "hello"
      "out.mp3" _ { StatusCode := 200, Location := none, Body := Except.ok "mp3" }
      rfl rfl rfl).1,
   (convertTextToSpeech_ok_leaves_empty_file (sampleWorld none 200 "mp3") "key" "hello"
      "out.mp3" _ { StatusCode := 200, Location := none, Body := Except.ok "mp3" }
      rfl rfl rfl).2.1⟩

/-- C9, counterexample: with the non-empty key "a", newline, "b" the client
refuses the request (the header value is invalid) and no HTTP request is
performed; with the key "key" and a models endpoint that answers 302, the
client follows the redirect and two HTTP requests are performed, the second
not to the models endpoint. -/
theorem nonempty_key_is_not_one_call :
    (main (sampleWorld (some "a\nb") 200 sampleBody) State.initial).wire = [] ∧
      (main (redirectWorld "key") State.initial).wire.map (fun r => (r.Method, r.URL)) =
        [("GET", "https://api.openai.com/v1/models"),
         ("GET", "https://example.com/v1/models")] := by
  constructor <;> rfl

/-- C9, amended: when `OPENAI_API_KEY` is absent or empty, `main` prints
exactly the missing-key line, calls the HTTP client not at all and performs no
HTTP request. With a non-empty key it calls `client.Do` exactly once, with the
GET request to the models endpoint, and never with the speech POST; the HTTP
requests performed are those of that one call: none when "Bearer " followed by
the key is no valid header value; otherwise the GET to the models endpoint
followed by the requests of the redirects the client follows, all of them
GET, at most 10 requests in all, and the GET to the models endpoint alone
when its answer is final (a transport error, a response that is no redirect,
or a redirect without `Location`). -/
theorem main_http_calls (w : World) (st : State) :
    ((w.environ "OPENAI_API_KEY" = none ∨ w.environ "OPENAI_API_KEY" = some "") →
      (main w st).stdout = st.stdout ++ "OPENAI_API_KEY environment variable is not set.\n" ∧
      (main w st).sent = st.sent ∧ (main w st).wire = st.wire) ∧
    (∀ key, w.environ "OPENAI_API_KEY" = some key → key ≠ "" →
      (main w st).sent =
        st.sent ++ [{ Method := "GET", URL := "https://api.openai.com/v1/models",
                      Header := [("Authorization", "Bearer " ++ key)], Body := none }] ∧
      (validHeaderFieldValue ("Bearer " ++ key) = false → (main w st).wire = st.wire) ∧
      (validHeaderFieldValue ("Bearer " ++ key) = true →
        (∃ rest, (main w st).wire = st.wire ++ modelsRequest key :: rest ∧
          rest.length ≤ 9 ∧ ∀ r ∈ rest, r.Method = "GET") ∧
        ((∀ resp, w.roundTrip (modelsRequest key) = Except.ok resp →
            redirectBehavior "GET" resp = none ∨ resp.Location = none) →
          (main w st).wire = st.wire ++ [modelsRequest key]))) := by
  constructor
  · intro h
    have hk : osGetenv w "OPENAI_API_KEY" = "" := by
      rcases h with h | h <;> simp [osGetenv, h]
    unfold main
    simp only [hk, if_true]
    exact ⟨String.append_assoc _ _ _, rfl, rfl⟩
  · intro key henv hkey
    obtain ⟨hsent, hwire⟩ := main_requests w st key henv hkey
    refine ⟨hsent, fun hbad => ?_, fun hgood => ⟨?_, fun hfinal => ?_⟩⟩
    · rw [hwire, clientRun_models_invalid w key hbad, List.append_nil]
    · obtain ⟨rest, hrest, hlen, hget⟩ :=
        doLoop_wire_head w (modelsRequest key) 9 (modelsRequest key) ""
          (transportSend_models_valid w key hgood)
      exact ⟨rest, by rw [hwire]; exact congrArg _ hrest, hlen, hget rfl⟩
    · rw [hwire]
      exact congrArg _ (doLoop_wire_final w (modelsRequest key) 9 (modelsRequest key) ""
        (transportSend_models_valid w key hgood) hfinal)

/-- C9, witness: without the variable nothing is handed to the client or
performed and the line is printed; with the key "key" and a final answer the
one request is the GET to the models endpoint. -/
theorem main_http_calls_witness :
    ((main (sampleWorld none 200 sampleBody) State.initial).stdout =
        "OPENAI_API_KEY environment variable is not set.\n" ∧
      (main (sampleWorld none 200 sampleBody) State.initial).sent = [] ∧
      (main (sampleWorld none 200 sampleBody) State.initial).wire = []) ∧
    (main (sampleWorld (some "key") 200 sampleBody) State.initial).sent =
      [{ Method := "GET", URL := "https://api.openai.com/v1/models",
         Header := [("Authorization", "Bearer key")], Body := none }] ∧
    (main (sampleWorld (some "key") 200 sampleBody) State.initial).wire =
      [{ Method := "GET", URL := "https://api.openai.com/v1/models",
         Header := [("Authorization", "Bearer key")], Body := none }] :=
  ⟨(main_http_calls (sampleWorld none 200 sampleBody) State.initial).1 (Or.inl rfl),
   ((main_http_calls (sampleWorld (some "key") 200 sampleBody) State.initial).2 "key" rfl
      (by decide)).1,
   (((main_http_calls (sampleWorld (some "key") 200 sampleBody) State.initial).2 "key" rfl
      (by decide)).2.2 (by decide)).2 (fun _ h => Or.inr (by cases h; rfl))⟩

/-- C10: in a run of `main` with a non-empty key in which `client.Do` returns
a response with status code `c`: when the listing returns the models
`m1 ... mn` and no error, standard output is exactly the line
`Response Status Code: c` followed by the `n` lines
`Model ID: ..., Object: ..., Created: ..., OwnedBy: ...` of the models, in
order, `Created` in decimal; and when the listing returns an error (the body
could not be read or decoded), the status line is still printed first, before
the error line. -/
theorem main_stdout (w : World) (st : State) (key : String) (resp : Response)
    (henv : w.environ "OPENAI_API_KEY" = some key) (hkey : key ≠ "")
    (hresp : (clientDo w (modelsRequest key) st).1 = Except.ok resp) :
    (∀ models, (getAvailableModels w key st).1 = (models, none) →
      (main w st).stdout =
        st.stdout ++ "Response Status Code: " ++ toString resp.StatusCode ++ "\n" ++
          String.join ((models.getD []).map (fun m =>
            "Model ID: " ++ m.ID ++ ", Object: " ++ m.Object ++ ", Created: " ++
              toString m.Created ++ ", OwnedBy: " ++ m.OwnedBy ++ "\n"))) ∧
    (∀ err, (getAvailableModels w key st).1.2 = some err →
      (main w st).stdout =
        st.stdout ++ "Response Status Code: " ++ toString resp.StatusCode ++ "\n" ++
          "Error: " ++ err ++ "\n") := by
  have hout := getAvailableModels_stdout w key st resp hresp
  rw [main_of_key w st key henv hkey]
  rcases hg : getAvailableModels w key st with ⟨⟨d, _ | e⟩, st1⟩
  · rw [hg] at hout
    simp only at hout
    refine ⟨fun models hm => ?_, fun err he => by simp at he⟩
    simp only [Prod.mk.injEq, and_true] at hm
    subst hm
    show _ = st.stdout ++ "Response Status Code: " ++ toString resp.StatusCode ++ "\n" ++
      String.join ((d.getD []).map modelLine)
    simp only [foldl_printModel_stdout, hout, String.append_assoc]
  · rw [hg] at hout
    simp only at hout
    refine ⟨fun models hm => by simp at hm, fun err he => ?_⟩
    simp only [Option.some.injEq] at he
    subst he
    simp only [println, hout, String.append_assoc]

/-- C10, witness: the sample body prints the status line and the line of the
model `m1`; a malformed body with status 401 prints the status line and then
the error line. -/
theorem main_stdout_witness :
    (main (sampleWorld (some "key") 200 sampleBody) State.initial).stdout =
        "Response Status Code: 200\nModel ID: m1, Object: model, Created: 1, OwnedBy: openai\n" ∧
      (main (sampleWorld (some "key") 401 "\x7b") State.initial).stdout =
        "Response Status Code: 401\nError: error unmarshaling JSON: invalid JSON\n" :=
  ⟨((main_stdout (sampleWorld (some "key") 200 sampleBody) State.initial "key"
      { StatusCode := 200, Location := none, Body := Except.ok sampleBody } rfl (by decide)
      rfl).1
      (some [{ ID := "m1", Object := "model", Created := 1, OwnedBy := "openai" }]) rfl).trans
      rfl,
   ((main_stdout (sampleWorld (some "key") 401 "\x7b") State.initial "key"
      { StatusCode := 401, Location := none, Body := Except.ok "\x7b" } rfl (by decide) rfl).2
      "error unmarshaling JSON: invalid JSON" rfl).trans rfl⟩

end Gotts
